import Mathlib

/-!
# Bochs pseudo-NIC driver and Ethernet link layer

A shallow embedding of `src/drivers/net/pnic.c` and `src/net/ethernet.c`.

* Register I/O is modelled by a deterministic device state machine
  (`Device σ`); every driver function threads the device state explicitly
  and returns the list of events it caused, in program order.
* `uint16_t` and `uint8_t` values are natural numbers reduced modulo
  `2^16` and `2^8` at the points where the C code converts to those types.
* Constants that come from headers which are not part of the sources
  (`pnic_api.h`, `if_ether.h`) are fields of `Consts`; every theorem holds
  for all values of them.
-/

namespace IPXE

/-! ## Machine integers -/

/-- Conversion to `uint8_t`. -/
def u8 (n : Nat) : Nat := n % 256

/-- Conversion to `uint16_t`. -/
def u16 (n : Nat) : Nat := n % 65536

/-- The two bytes of a `uint16_t` object in memory (i386, least significant
byte first). -/
def le16_bytes (v : Nat) : List Nat := [v % 256, v / 256 % 256]

/-- The `uint16_t` value held by two bytes of memory (i386). -/
def le16_val (b : List Nat) : Nat := b.getD 0 0 % 256 + 256 * (b.getD 1 0 % 256)

/-! ## Constants from headers outside the sources -/

/-- Values of the macros of `pnic_api.h` and `if_ether.h` used by the
driver.  The register macros are offsets from the I/O base address. -/
structure Consts where
  PNIC_REG_CMD : Nat
  PNIC_REG_STAT : Nat
  PNIC_REG_LEN : Nat
  PNIC_REG_DATA : Nat
  PNIC_CMD_API_VER : Nat
  PNIC_CMD_READ_MAC : Nat
  PNIC_CMD_RESET : Nat
  PNIC_CMD_XMIT : Nat
  PNIC_CMD_RECV : Nat
  PNIC_CMD_RECV_QLEN : Nat
  PNIC_STATUS_OK : Nat
  PNIC_API_VERSION : Nat
  ETH_FRAME_LEN : Nat
deriving DecidableEq, Repr

/-- Length of an Ethernet address (spec: 6-byte addresses). -/
def ETH_ALEN : Nat := 6

/-- Size of `struct ethhdr` (spec: fixed 14-byte header). -/
def ETH_HLEN : Nat := 14

/-! ## Packet buffers -/

/-- A packet buffer: `mem` is the storage from `head` to `end`, `data` and
`tail` are the offsets of the `data` and `tail` pointers from `head`. -/
structure pk_buff where
  mem : List Nat
  data : Nat
  tail : Nat
deriving DecidableEq, Repr

/-- Modelled from the spec: `pkb_len` of `gpxe/pkbuff.h` (not among the
sources), the length of the valid data, `tail - data`. -/
def pkb_len (pkb : pk_buff) : Nat := pkb.tail - pkb.data

/-- Modelled from the spec: `pkb_put` of `gpxe/pkbuff.h` (not among the
sources): declare `len` more bytes of valid data at the tail. -/
def pkb_put (pkb : pk_buff) (len : Nat) : pk_buff :=
  { pkb with tail := pkb.tail + len }

/-- Modelled from the spec: `pkb_pull` of `gpxe/pkbuff.h` (not among the
sources): remove `len` bytes from the front. -/
def pkb_pull (pkb : pk_buff) (len : Nat) : pk_buff :=
  { pkb with data := pkb.data + len }

/-- Modelled from the spec: `pkb_push` of `gpxe/pkbuff.h` (not among the
sources): prepend `len` bytes at the front, growing into the head room.
There is no result when the head room is smaller than `len`: the new data
pointer would lie before the start of the buffer. -/
def pkb_push (pkb : pk_buff) (len : Nat) : Option pk_buff :=
  if len ≤ pkb.data then some { pkb with data := pkb.data - len } else none

/-- The valid data of a packet buffer: the bytes from `data` up to `tail`. -/
def pkb_data (pkb : pk_buff) : List Nat :=
  (pkb.mem.drop pkb.data).take (pkb_len pkb)

/-- Overwrite memory from offset `off` on with the bytes `bytes`. -/
def mem_write (mem : List Nat) (off : Nat) (bytes : List Nat) : List Nat :=
  mem.take off ++ bytes ++ mem.drop (off + bytes.length)

/-- The external buffer allocator: `ok n` tells whether the `n`-th
allocation attempt succeeds, `fill n i` is the indeterminate content of
byte `i` of the buffer obtained by it. -/
structure Allocator where
  ok : Nat → Bool
  fill : Nat → Nat → Nat

/-- Modelled from the spec: `alloc_pkb` of `gpxe/pkbuff.h` (not among the
sources): `allocate(capacity) -> buffer-or-failure`; a new buffer is empty,
with `data = tail = head`. -/
def alloc_pkb (A : Allocator) (n : Nat) (len : Nat) : Option pk_buff :=
  if A.ok n then
    some { mem := (List.range len).map (A.fill n), data := 0, tail := 0 }
  else none

/-- The driver's private data, `struct pnic`. -/
structure pnic where
  ioaddr : Nat
deriving DecidableEq, Repr

/-- The parts of `struct net_device` the code uses. -/
structure net_device where
  priv : pnic
  ll_addr : List Nat
deriving DecidableEq, Repr

/-! ## Events -/

/-- Messages printed by the driver and the link layer. -/
inductive Diag where
  | wrong_data_length (command expected got : Nat)
  | output_buffer_too_small (command have_ need : Nat)
  | command_failed (command input_length status : Nat)
  | api_version_mismatch (nic_major nic_minor our_major our_minor : Nat)
  | update_bochs
  | failed_installation_check (status : Nat)
  | packet_too_short (len : Nat)
deriving DecidableEq, Repr

/-- Everything a driver function does that is visible outside it. -/
inductive Event where
  | outw (val port : Nat)
  | outb (val port : Nat)
  | inw (port val : Nat)
  | inb (port val : Nat)
  | printf (d : Diag)
  | alloc_pkb (len : Nat) (ok : Bool)
  | free_pkb (pkb : pk_buff)
  | netdev_rx (pkb : pk_buff)
  | netdev_tx (pkb : pk_buff)
  | net_rx (pkb : pk_buff) (net_proto : Nat) (ll_source : List Nat)
  | alloc_etherdev (ok : Bool)
  | pci_set_drvdata
  | register_netdev (rc : Int)
  | unregister_netdev
  | free_netdev (netdev : Option net_device)
deriving DecidableEq, Repr

/-- Register accesses, as opposed to diagnostics and calls. -/
def Event.isReg : Event → Bool
  | .outw _ _ => true
  | .outb _ _ => true
  | .inw _ _ => true
  | .inb _ _ => true
  | _ => false

/-- Diagnostics. -/
def Event.isPrintf : Event → Bool
  | .printf _ => true
  | _ => false

/-! ## The device -/

/-- A device behind the I/O ports: how its state changes on a write, and
what a read returns. -/
structure Device (σ : Type) where
  outw : σ → Nat → Nat → σ
  outb : σ → Nat → Nat → σ
  inw : σ → Nat → Nat × σ
  inb : σ → Nat → Nat × σ

/-! ## pnic_command_quiet -/

/-- The loop `for ( i = 0; i < input_length; i++ ) outb ( input[i], DATA )`,
with `n` iterations left and `i` the current index. -/
def write_input {σ : Type} (D : Device σ) (port : Nat) (input : Nat → Nat) :
    Nat → Nat → σ → σ × List Event
  | 0, _, s => (s, [])
  | n + 1, i, s =>
    let v := u8 (input i)
    let r := write_input D port input n (i + 1) (D.outb s v port)
    (r.1, Event.outb v port :: r.2)

/-- The loop `for ( i = 0; i < _output_length; i++ ) output[i] = inb ( DATA )`,
with `n` iterations left and `i` the current index. -/
def read_output {σ : Type} (D : Device σ) (port : Nat) :
    Nat → Nat → List Nat → σ → List Nat × σ × List Event
  | 0, _, out, s => (out, s, [])
  | n + 1, i, out, s =>
    let v := u8 (D.inb s port).1
    let r := read_output D port n (i + 1) (out.set i v) (D.inb s port).2
    (r.1, r.2.1, Event.inb port v :: r.2.2)

/-- Lines 51-61 of `pnic_command_quiet`: the optional input and the
command write.  The arguments are already converted to `uint16_t`. -/
def pnic_issue {σ : Type} (K : Consts) (D : Device σ) (p : pnic) (command : Nat)
    (input : Option (Nat → Nat)) (input_length : Nat) (s : σ) : σ × List Event :=
  let w : σ × List Event :=
    match input with
    | some inp =>
      let r := write_input D (p.ioaddr + K.PNIC_REG_DATA) inp input_length 0
        (D.outw s input_length (p.ioaddr + K.PNIC_REG_LEN))
      (r.1, Event.outw input_length (p.ioaddr + K.PNIC_REG_LEN) :: r.2)
    | none => (s, [])
  (D.outw w.1 command (p.ioaddr + K.PNIC_REG_CMD),
   w.2 ++ [Event.outw command (p.ioaddr + K.PNIC_REG_CMD)])

/-- What one transaction leaves behind. -/
structure CmdResult (σ : Type) where
  status : Nat
  output : Option (List Nat)
  output_length : Option Nat
  dev : σ
  events : List Event

/-- The function `pnic_command_quiet`.  `input` is the memory read through
the pointer `input` (`none` for `NULL`), `output` the content of the memory
the pointer `output` points to, `output_length` the content of the sink. -/
def pnic_command_quiet {σ : Type} (K : Consts) (D : Device σ) (p : pnic)
    (command : Nat) (input : Option (Nat → Nat)) (input_length : Nat)
    (output : Option (List Nat)) (output_max_length : Nat)
    (output_length : Option Nat) (s : σ) : CmdResult σ :=
  let command := u16 command
  let input_length := u16 input_length
  let output_max_length := u16 output_max_length
  let iss := pnic_issue K D p command input input_length s
  let st := D.inw iss.1 (p.ioaddr + K.PNIC_REG_STAT)
  let status := u16 st.1
  let ln := D.inw st.2 (p.ioaddr + K.PNIC_REG_LEN)
  let declared := u16 ln.1
  let evHead := iss.2 ++ [Event.inw (p.ioaddr + K.PNIC_REG_STAT) status,
                          Event.inw (p.ioaddr + K.PNIC_REG_LEN) declared]
  let evLen : List Event :=
    match output_length with
    | none =>
      if declared ≠ output_max_length then
        [Event.printf (Diag.wrong_data_length command output_max_length declared)]
      else []
    | some _ => []
  let sink : Option Nat := output_length.map (fun _ => declared)
  match output with
  | some out =>
    let evSmall : List Event :=
      if declared > output_max_length then
        [Event.printf (Diag.output_buffer_too_small command output_max_length declared)]
      else []
    let n := if declared > output_max_length then output_max_length else declared
    let r := read_output D (p.ioaddr + K.PNIC_REG_DATA) n 0 out ln.2
    { status := status, output := some r.1, output_length := sink, dev := r.2.1,
      events := evHead ++ evLen ++ evSmall ++ r.2.2 }
  | none =>
    { status := status, output := none, output_length := sink, dev := ln.2,
      events := evHead ++ evLen }

/-- The function `pnic_command`. -/
def pnic_command {σ : Type} (K : Consts) (D : Device σ) (p : pnic)
    (command : Nat) (input : Option (Nat → Nat)) (input_length : Nat)
    (output : Option (List Nat)) (output_max_length : Nat)
    (output_length : Option Nat) (s : σ) : CmdResult σ :=
  let r := pnic_command_quiet K D p command input input_length output
    output_max_length output_length s
  if r.status = K.PNIC_STATUS_OK then r
  else { r with events := r.events ++
    [Event.printf (Diag.command_failed (u16 command) (u16 input_length) r.status)] }

/-! ## pnic_transmit and pnic_poll -/

/-- The function `pnic_transmit`.  The source passes the pointer `pkb`
itself, not `pkb->data`, as the input of the transaction: `pkb_object` is
the memory read through that pointer, that is the bytes of the
`struct pk_buff` object and of what follows it. -/
def pnic_transmit {σ : Type} (K : Consts) (D : Device σ) (netdev : net_device)
    (pkb : pk_buff) (pkb_object : Nat → Nat) (s : σ) : Int × σ × List Event :=
  let r := pnic_command K D netdev.priv K.PNIC_CMD_XMIT (some pkb_object)
    (pkb_len pkb) none 0 none s
  (0, r.dev, r.events ++ [Event.free_pkb pkb])

/-- What one call of `pnic_poll` leaves behind: the device state, the
number of allocation attempts made so far, and the events. -/
structure PollResult (σ : Type) where
  dev : σ
  allocs : Nat
  events : List Event

/-- Put the events `ev` before those of a poll result. -/
def PollResult.after {σ : Type} (ev : List Event) (r : PollResult σ) : PollResult σ :=
  { r with events := ev ++ r.events }

/-- The loop `while ( 1 )` of `pnic_poll`, with a bound on the number of
iterations; `none` when the bound is reached.  `n` counts the allocation
attempts made so far, `qlen` is the content of the local variable `qlen`. -/
def pnic_poll_loop {σ : Type} (K : Consts) (D : Device σ) (A : Allocator)
    (netdev : net_device) : Nat → σ → Nat → Nat → Option (PollResult σ)
  | 0, _, _, _ => none
  | fuel + 1, s, n, qlen =>
    let q := pnic_command K D netdev.priv K.PNIC_CMD_RECV_QLEN none 0
      (some (le16_bytes qlen)) 2 none s
    if q.status ≠ K.PNIC_STATUS_OK then
      some { dev := q.dev, allocs := n, events := q.events }
    else
      let qlen1 := le16_val (q.output.getD (le16_bytes qlen))
      if qlen1 = 0 then
        some { dev := q.dev, allocs := n, events := q.events }
      else
        match alloc_pkb A n K.ETH_FRAME_LEN with
        | none =>
          some { dev := q.dev, allocs := n + 1,
                 events := q.events ++ [Event.alloc_pkb K.ETH_FRAME_LEN false] }
        | some pkb =>
          let r := pnic_command K D netdev.priv K.PNIC_CMD_RECV none 0
            (some (pkb.mem.drop pkb.data)) K.ETH_FRAME_LEN (some 0) q.dev
          let pkb1 : pk_buff :=
            { pkb with mem := pkb.mem.take pkb.data ++ r.output.getD [] }
          if r.status ≠ K.PNIC_STATUS_OK then
            some { dev := r.dev, allocs := n + 1,
                   events := q.events ++ [Event.alloc_pkb K.ETH_FRAME_LEN true]
                     ++ r.events ++ [Event.free_pkb pkb1] }
          else
            let pkb2 := pkb_put pkb1 (r.output_length.getD 0)
            (pnic_poll_loop K D A netdev fuel r.dev (n + 1) qlen1).map
              (PollResult.after (q.events ++ [Event.alloc_pkb K.ETH_FRAME_LEN true]
                ++ r.events ++ [Event.netdev_rx pkb2]))

/-- The function `pnic_poll`; `qlen0` is the indeterminate initial content
of the local variable `qlen`. -/
def pnic_poll {σ : Type} (K : Consts) (D : Device σ) (A : Allocator)
    (netdev : net_device) (fuel : Nat) (qlen0 : Nat) (s : σ) (allocs : Nat) :
    Option (PollResult σ) :=
  pnic_poll_loop K D A netdev fuel s allocs qlen0

/-- The buffers handed upstream by `netdev_rx`, in order. -/
def deliveries (ev : List Event) : List pk_buff :=
  ev.filterMap (fun e => match e with
    | Event.netdev_rx p => some p
    | _ => none)

/-- The buffers released by `free_pkb`, in order. -/
def releases (ev : List Event) : List pk_buff :=
  ev.filterMap (fun e => match e with
    | Event.free_pkb p => some p
    | _ => none)

/-! ## Ethernet -/

/-- The part of `struct net_protocol` the code uses. -/
structure net_protocol where
  net_proto : Nat
deriving DecidableEq, Repr

/-- The library function `memcpy ( mem + dest, src, n )`. -/
def memcpy (mem : List Nat) (dest : Nat) (src : List Nat) (n : Nat) : List Nat :=
  mem_write mem dest ((List.range n).map (fun i => src.getD i 0))

/-- The function `eth_tx`.  `netdev_tx` is the external transmit path; the
result is its return value, the buffer as `eth_tx` leaves it, and the
events.  There is no result when `pkb_push` has none. -/
def eth_tx (netdev_tx : net_device → pk_buff → Int) (pkb : pk_buff)
    (netdev : net_device) (np : net_protocol) (ll_dest : List Nat) :
    Option (Int × pk_buff × List Event) :=
  match pkb_push pkb ETH_HLEN with
  | none => none
  | some p =>
    let ethhdr := p.data
    let m1 := memcpy p.mem ethhdr ll_dest ETH_ALEN
    let m2 := memcpy m1 (ethhdr + ETH_ALEN) netdev.ll_addr ETH_ALEN
    let m3 := mem_write m2 (ethhdr + 2 * ETH_ALEN) (le16_bytes np.net_proto)
    let p3 : pk_buff := { p with mem := m3 }
    some (netdev_tx netdev p3, p3, [Event.netdev_tx p3])

/-- The function `eth_rx`: the buffer as it leaves it, and the events. -/
def eth_rx (pkb : pk_buff) (_netdev : net_device) : pk_buff × List Event :=
  let ethhdr := pkb.data
  if pkb_len pkb < ETH_HLEN then
    (pkb, [Event.printf (Diag.packet_too_short (pkb_len pkb))])
  else
    let p := pkb_pull pkb ETH_HLEN
    let h_protocol := le16_val ((p.mem.drop (ethhdr + 2 * ETH_ALEN)).take 2)
    let h_source := (p.mem.drop (ethhdr + ETH_ALEN)).take ETH_ALEN
    (p, [Event.net_rx p h_protocol h_source])

/-- The upstream dispatches `net_rx` among the events, in order. -/
def dispatches (ev : List Event) : List (pk_buff × Nat × List Nat) :=
  ev.filterMap (fun e => match e with
    | Event.net_rx p t s => some (p, t, s)
    | _ => none)

/-- Structural invariant of a packet buffer, `data <= tail <= end`. -/
def pkb_wf (pkb : pk_buff) : Prop :=
  pkb.data ≤ pkb.tail ∧ pkb.tail ≤ pkb.mem.length

instance (pkb : pk_buff) : Decidable (pkb_wf pkb) := by
  unfold pkb_wf; exact inferInstance

/-! ## A simulated device -/

/-- State of the simulated device: the frames queued for reception, and
the response to the last command (status, declared length, bytes not yet
read from the data register). -/
structure SimPnic where
  queue : List (List Nat)
  status : Nat
  length : Nat
  out : List Nat
deriving DecidableEq, Repr

/-- A simulated pseudo-NIC at I/O base `base`: the queue-length command
answers OK with the number of queued frames as a 16-bit value, the receive
command answers OK with the next queued frame, any other command fails. -/
def simPnic (K : Consts) (base : Nat) : Device SimPnic where
  outw s v port :=
    if port = base + K.PNIC_REG_CMD then
      if v = u16 K.PNIC_CMD_RECV_QLEN then
        { s with status := K.PNIC_STATUS_OK, length := 2,
                 out := le16_bytes s.queue.length }
      else if v = u16 K.PNIC_CMD_RECV then
        match s.queue with
        | f :: q => { queue := q, status := K.PNIC_STATUS_OK, length := f.length, out := f }
        | [] => { s with status := K.PNIC_STATUS_OK + 1, length := 0, out := [] }
      else { s with status := K.PNIC_STATUS_OK + 1, length := 0, out := [] }
    else s
  outb s _ _ := s
  inw s port :=
    if port = base + K.PNIC_REG_STAT then (s.status, s)
    else if port = base + K.PNIC_REG_LEN then (s.length, s)
    else (0, s)
  inb s port :=
    if port = base + K.PNIC_REG_DATA then (s.out.headD 0, { s with out := s.out.tail })
    else (0, s)

/-- A device that ignores writes and answers every read with a fixed
status, declared length and data byte. -/
def constDevice (K : Consts) (base status length byte : Nat) : Device Unit where
  outw s _ _ := s
  outb s _ _ := s
  inw s port := if port = base + K.PNIC_REG_STAT then (status, s) else (length, s)
  inb s _ := (byte, s)

/-- Sample values of the constants, those of the Bochs pseudo-NIC API. -/
def sampleConsts : Consts where
  PNIC_REG_CMD := 0
  PNIC_REG_STAT := 0
  PNIC_REG_LEN := 2
  PNIC_REG_DATA := 4
  PNIC_CMD_API_VER := 1
  PNIC_CMD_READ_MAC := 2
  PNIC_CMD_RESET := 3
  PNIC_CMD_XMIT := 4
  PNIC_CMD_RECV := 5
  PNIC_CMD_RECV_QLEN := 6
  PNIC_STATUS_OK := 0x4f4b
  PNIC_API_VERSION := 0x0101
  ETH_FRAME_LEN := 1514

/-! ## What the device says during a transaction -/

/-- The bytes returned by `n` successive reads of the port `port`. -/
def data_stream {σ : Type} (D : Device σ) (port : Nat) : Nat → σ → List Nat
  | 0, _ => []
  | n + 1, s => u8 (D.inb s port).1 :: data_stream D port n (D.inb s port).2

/-- The value the status register returns in a transaction. -/
def device_status {σ : Type} (K : Consts) (D : Device σ) (p : pnic) (command : Nat)
    (input : Option (Nat → Nat)) (input_length : Nat) (s : σ) : Nat :=
  u16 (D.inw (pnic_issue K D p (u16 command) input (u16 input_length) s).1
    (p.ioaddr + K.PNIC_REG_STAT)).1

/-- The device state after the status and the length have been read. -/
def device_after_length {σ : Type} (K : Consts) (D : Device σ) (p : pnic)
    (command : Nat) (input : Option (Nat → Nat)) (input_length : Nat) (s : σ) : σ :=
  (D.inw (D.inw (pnic_issue K D p (u16 command) input (u16 input_length) s).1
    (p.ioaddr + K.PNIC_REG_STAT)).2 (p.ioaddr + K.PNIC_REG_LEN)).2

/-- The output length the device declares in a transaction: the value the
length register returns after the status has been read. -/
def device_length {σ : Type} (K : Consts) (D : Device σ) (p : pnic) (command : Nat)
    (input : Option (Nat → Nat)) (input_length : Nat) (s : σ) : Nat :=
  u16 (D.inw (D.inw (pnic_issue K D p (u16 command) input (u16 input_length) s).1
    (p.ioaddr + K.PNIC_REG_STAT)).2 (p.ioaddr + K.PNIC_REG_LEN)).1

/-- The reads of the port `port` by `inb`, in order. -/
def inb_values (port : Nat) (ev : List Event) : List Nat :=
  ev.filterMap (fun e => match e with
    | Event.inb q v => if q = port then some v else none
    | _ => none)

/-! ## The trace of a poll against the simulated device -/

/-- The constants describe a register interface the simulated device can
serve: the status and length registers are distinct, the two receive
commands differ as 16-bit codes, and the OK status is a 16-bit value. -/
def Consts.usable (K : Consts) : Prop :=
  K.PNIC_REG_STAT ≠ K.PNIC_REG_LEN
  ∧ u16 K.PNIC_CMD_RECV_QLEN ≠ u16 K.PNIC_CMD_RECV
  ∧ K.PNIC_STATUS_OK < 65536

instance (K : Consts) : Decidable K.usable := by
  unfold Consts.usable; exact inferInstance

/-- Register accesses of a queue-length transaction answered with `n`. -/
def qlen_events (K : Consts) (base n : Nat) : List Event :=
  [Event.outw (u16 K.PNIC_CMD_RECV_QLEN) (base + K.PNIC_REG_CMD),
   Event.inw (base + K.PNIC_REG_STAT) K.PNIC_STATUS_OK,
   Event.inw (base + K.PNIC_REG_LEN) 2,
   Event.inb (base + K.PNIC_REG_DATA) (n % 256),
   Event.inb (base + K.PNIC_REG_DATA) (n / 256 % 256)]

/-- Register accesses of a receive transaction answered with the frame `f`. -/
def recv_events (K : Consts) (base : Nat) (f : List Nat) : List Event :=
  [Event.outw (u16 K.PNIC_CMD_RECV) (base + K.PNIC_REG_CMD),
   Event.inw (base + K.PNIC_REG_STAT) K.PNIC_STATUS_OK,
   Event.inw (base + K.PNIC_REG_LEN) f.length]
  ++ f.map (fun v => Event.inb (base + K.PNIC_REG_DATA) v)

/-- The buffer of allocation attempt `n` after the frame `f` has been
received into it and declared as its valid data. -/
def received_pkb (K : Consts) (A : Allocator) (n : Nat) (f : List Nat) : pk_buff :=
  { mem := f ++ ((List.range K.ETH_FRAME_LEN).map (A.fill n)).drop f.length,
    data := 0, tail := f.length }

/-- The events of the loop iterations that deliver the frames `fs`, when
`more` further frames are queued behind them and `n` allocation attempts
were made before. -/
def deliver_events (K : Consts) (base : Nat) (A : Allocator) (more : Nat) :
    List (List Nat) → Nat → List Event
  | [], _ => []
  | f :: fs, n =>
    qlen_events K base (fs.length + 1 + more)
      ++ [Event.alloc_pkb K.ETH_FRAME_LEN true]
      ++ recv_events K base f
      ++ [Event.netdev_rx (received_pkb K A n f)]
      ++ deliver_events K base A more fs (n + 1)

/-- The number of writes of the value `v` to the port `port`. -/
def outw_count (v port : Nat) (ev : List Event) : Nat :=
  ev.count (Event.outw v port)

/-! ## pnic_api_check and pnic_probe -/

/-- The function `pnic_api_check`: its result and what it prints. -/
def pnic_api_check (K : Consts) (api_version : Nat) : Int × List Event :=
  let api_version := u16 api_version
  let ev1 : List Event :=
    if api_version ≠ K.PNIC_API_VERSION then
      [Event.printf (Diag.api_version_mismatch (api_version / 256) (api_version % 256)
        (K.PNIC_API_VERSION / 256) (K.PNIC_API_VERSION % 256))]
    else []
  let ev2 : List Event :=
    if api_version < K.PNIC_API_VERSION then [Event.printf Diag.update_bochs] else []
  (if api_version = K.PNIC_API_VERSION then 1 else 0, ev1 ++ ev2)

/-- The part of `struct pci_device` the code uses. -/
structure pci_device where
  ioaddr : Nat
deriving DecidableEq, Repr

/-- The functions a net device's hooks can point to. -/
inductive Hook where
  | pnic_poll
  | pnic_transmit
deriving DecidableEq, Repr

/-- The net device as `pnic_probe` builds it: also its `poll` and
`transmit` hooks. -/
structure probe_netdev where
  netdev : net_device
  poll : Option Hook
  transmit : Option Hook
deriving DecidableEq, Repr

/-- The values of `ENOMEM` and `EIO` of `errno.h`, which is not among the
sources. -/
structure Errno where
  ENOMEM : Nat
  EIO : Nat
deriving DecidableEq, Repr

/-- What `pnic_probe` meets outside the device: whether `alloc_etherdev`
succeeds, the content of the new `ll_addr` array and of the local variable
`api_version` before they are written, and the answer of the device
registry. -/
structure ProbeEnv where
  alloc_ok : Bool
  ll_addr0 : List Nat
  api_version0 : Nat
  register_netdev : probe_netdev → Int

/-- What `pnic_probe` leaves behind: its return value, the device state,
the net device it handed to `register_netdev` (`none` when it did not get
there), and the events. -/
structure ProbeResult (σ : Type) where
  rc : Int
  dev : σ
  offered : Option probe_netdev
  events : List Event

/-- The function `pnic_probe`. -/
def pnic_probe {σ : Type} (K : Consts) (E : Errno) (D : Device σ) (env : ProbeEnv)
    (pci : pci_device) (s : σ) : ProbeResult σ :=
  if env.alloc_ok = false then
    { rc := -(E.ENOMEM : Int), dev := s, offered := none,
      events := [Event.alloc_etherdev false, Event.free_netdev none] }
  else
    let p : pnic := { ioaddr := u16 pci.ioaddr }
    let a := pnic_command_quiet K D p K.PNIC_CMD_API_VER none 0
      (some (le16_bytes env.api_version0)) 2 none s
    if a.status ≠ K.PNIC_STATUS_OK then
      { rc := -( Errno.EIO E : Int), dev := a.dev, offered := none,
        events := [Event.alloc_etherdev true, Event.pci_set_drvdata] ++ a.events
          ++ [Event.printf (Diag.failed_installation_check a.status),
              Event.free_netdev (some { priv := p, ll_addr := env.ll_addr0 })] }
    else
      let api_version := le16_val (a.output.getD (le16_bytes env.api_version0))
      let c := pnic_api_check K api_version
      let m := pnic_command K D p K.PNIC_CMD_READ_MAC none 0
        (some env.ll_addr0) ETH_ALEN none a.dev
      let nd : net_device := { priv := p, ll_addr := m.output.getD env.ll_addr0 }
      let pn : probe_netdev :=
        { netdev := nd, poll := some Hook.pnic_poll, transmit := some Hook.pnic_transmit }
      let rc := env.register_netdev pn
      let ev := [Event.alloc_etherdev true, Event.pci_set_drvdata] ++ a.events
        ++ c.2 ++ m.events ++ [Event.register_netdev rc]
      if rc ≠ 0 then
        { rc := rc, dev := m.dev, offered := some pn,
          events := ev ++ [Event.free_netdev (some nd)] }
      else
        { rc := 0, dev := m.dev, offered := some pn, events := ev }

/-- The "wrong data length" diagnostics among the events. -/
def wrong_length_diags (ev : List Event) : List Event :=
  ev.filter (fun e => match e with
    | Event.printf (Diag.wrong_data_length _ _ _) => true
    | _ => false)

/-- A device that answers the queue-length command with OK and the two
data bytes `01 01`, and fails every other command.  Its state is the last
command written. -/
def stuckDevice (K : Consts) (base : Nat) : Device Nat where
  outw s v port := if port = base + K.PNIC_REG_CMD then v else s
  outb s _ _ := s
  inw s port :=
    if port = base + K.PNIC_REG_LEN then
      (if s = u16 K.PNIC_CMD_RECV_QLEN then 2 else 0, s)
    else
      (if s = u16 K.PNIC_CMD_RECV_QLEN then K.PNIC_STATUS_OK else K.PNIC_STATUS_OK + 1, s)
  inb s _ := (1, s)

/-! ## Lemmas on the transfer loops -/

theorem range_map_shift {α : Type} (f : Nat → α) (n : Nat) :
    (List.range (n + 1)).map f = f 0 :: (List.range n).map (fun j => f (j + 1)) := by
  rw [List.range_succ_eq_map, List.map_cons, List.map_map]
  rfl

theorem write_input_events {σ : Type} (D : Device σ) (port : Nat) (inp : Nat → Nat)
    (n i : Nat) (s : σ) :
    (write_input D port inp n i s).2
      = (List.range n).map (fun j => Event.outb (u8 (inp (i + j))) port) := by
  induction n generalizing i s with
  | zero => rfl
  | succ n ih =>
    rw [range_map_shift]
    simp only [write_input, ih, Nat.add_zero]
    congr 1
    apply List.map_congr_left
    intro j _
    congr 3
    omega

theorem read_output_events {σ : Type} (D : Device σ) (port : Nat) (n i : Nat)
    (out : List Nat) (s : σ) :
    (read_output D port n i out s).2.2
      = (data_stream D port n s).map (fun v => Event.inb port v) := by
  induction n generalizing i out s with
  | zero => rfl
  | succ n ih => simp only [read_output, data_stream, ih, List.map_cons]

theorem data_stream_length {σ : Type} (D : Device σ) (port : Nat) (n : Nat) (s : σ) :
    (data_stream D port n s).length = n := by
  induction n generalizing s with
  | zero => rfl
  | succ n ih => simp only [data_stream, List.length_cons, ih]

theorem read_output_mem {σ : Type} (D : Device σ) (port : Nat) (n i : Nat)
    (out : List Nat) (s : σ) (h : i + n ≤ out.length) :
    (read_output D port n i out s).1
      = out.take i ++ data_stream D port n s ++ out.drop (i + n) := by
  induction n generalizing i out s with
  | zero => simp [read_output, data_stream]
  | succ n ih =>
    have hi : i < out.length := by omega
    simp only [read_output, data_stream]
    rw [ih (i + 1) _ _ (by rw [List.length_set]; omega)]
    rw [List.set_eq_take_append_cons_drop, if_pos hi]
    have h1 : (List.take i out).length = i := by
      rw [List.length_take]; omega
    have e1 : List.take (i + 1) (List.take i out ++ u8 (D.inb s port).1 :: List.drop (i + 1) out)
        = List.take i out ++ [u8 (D.inb s port).1] := by
      rw [List.take_append_eq_append_take, h1]
      simp [List.take_take]
    have e2 : List.drop (i + 1 + n) (List.take i out ++ u8 (D.inb s port).1 :: List.drop (i + 1) out)
        = List.drop (i + (n + 1)) out := by
      rw [List.drop_append_eq_append_drop, h1]
      have : List.drop (i + 1 + n) (List.take i out) = [] := by
        apply List.drop_of_length_le; rw [h1]; omega
      rw [this, List.nil_append]
      have e3 : i + 1 + n - i = n + 1 := by omega
      rw [e3, List.drop_succ_cons, List.drop_drop]
      congr 1; omega
    rw [e1, e2]
    simp

theorem filter_isReg_inb (port : Nat) (l : List Nat) :
    (l.map (fun v => Event.inb port v)).filter Event.isReg
      = l.map (fun v => Event.inb port v) := by
  induction l with
  | nil => rfl
  | cons a l ih => simp [List.filter_cons, Event.isReg, ih]

theorem filter_isReg_outb (port : Nat) (f : Nat → Nat) (l : List Nat) :
    (l.map (fun i => Event.outb (f i) port)).filter Event.isReg
      = l.map (fun i => Event.outb (f i) port) := by
  induction l with
  | nil => rfl
  | cons a l ih => simp [List.filter_cons, Event.isReg, ih]

theorem pnic_issue_events {σ : Type} (K : Consts) (D : Device σ) (p : pnic)
    (command : Nat) (input : Option (Nat → Nat)) (input_length : Nat) (s : σ) :
    (pnic_issue K D p command input input_length s).2
      = (match input with
         | some inp =>
           Event.outw input_length (p.ioaddr + K.PNIC_REG_LEN) ::
             (List.range input_length).map
               (fun i => Event.outb (u8 (inp i)) (p.ioaddr + K.PNIC_REG_DATA))
         | none => [])
        ++ [Event.outw command (p.ioaddr + K.PNIC_REG_CMD)] := by
  cases input with
  | none => rfl
  | some inp =>
    simp only [pnic_issue, write_input_events, Nat.zero_add]

/-- The events of one transaction, spelled out. -/
theorem pnic_command_quiet_events {σ : Type} (K : Consts) (D : Device σ) (p : pnic)
    (command : Nat) (input : Option (Nat → Nat)) (input_length : Nat)
    (output : Option (List Nat)) (output_max_length : Nat)
    (output_length : Option Nat) (s : σ) :
    (pnic_command_quiet K D p command input input_length output output_max_length
        output_length s).events
      = (pnic_issue K D p (u16 command) input (u16 input_length) s).2
        ++ [Event.inw (p.ioaddr + K.PNIC_REG_STAT)
              (device_status K D p command input input_length s),
            Event.inw (p.ioaddr + K.PNIC_REG_LEN)
              (device_length K D p command input input_length s)]
        ++ (if output_length.isNone ∧
              device_length K D p command input input_length s ≠ u16 output_max_length then
              [Event.printf (Diag.wrong_data_length (u16 command) (u16 output_max_length)
                (device_length K D p command input input_length s))]
            else [])
        ++ (if output.isSome ∧
              device_length K D p command input input_length s > u16 output_max_length then
              [Event.printf (Diag.output_buffer_too_small (u16 command)
                (u16 output_max_length)
                (device_length K D p command input input_length s))]
            else [])
        ++ (data_stream D (p.ioaddr + K.PNIC_REG_DATA)
              (match output with
               | some _ => min (device_length K D p command input input_length s)
                             (u16 output_max_length)
               | none => 0)
              (device_after_length K D p command input input_length s)).map
            (fun v => Event.inb (p.ioaddr + K.PNIC_REG_DATA) v) := by
  have hmin : ∀ a b : Nat, (if a > b then b else a) = min a b := by
    intro a b; split <;> omega
  cases output <;> cases output_length <;>
    simp [pnic_command_quiet, device_status, device_length, device_after_length,
      data_stream, read_output_events, hmin]

theorem pnic_command_quiet_status {σ : Type} (K : Consts) (D : Device σ) (p : pnic)
    (command : Nat) (input : Option (Nat → Nat)) (input_length : Nat)
    (output : Option (List Nat)) (output_max_length : Nat)
    (output_length : Option Nat) (s : σ) :
    (pnic_command_quiet K D p command input input_length output output_max_length
        output_length s).status
      = device_status K D p command input input_length s := by
  cases output <;> rfl

theorem pnic_command_quiet_sink {σ : Type} (K : Consts) (D : Device σ) (p : pnic)
    (command : Nat) (input : Option (Nat → Nat)) (input_length : Nat)
    (output : Option (List Nat)) (output_max_length : Nat)
    (output_length : Option Nat) (s : σ) :
    (pnic_command_quiet K D p command input input_length output output_max_length
        output_length s).output_length
      = output_length.map (fun _ => device_length K D p command input input_length s) := by
  cases output <;> rfl

theorem pnic_command_quiet_output {σ : Type} (K : Consts) (D : Device σ) (p : pnic)
    (command : Nat) (input : Option (Nat → Nat)) (input_length : Nat)
    (out : List Nat) (output_max_length : Nat)
    (output_length : Option Nat) (s : σ)
    (hcap : u16 output_max_length ≤ out.length) :
    (pnic_command_quiet K D p command input input_length (some out) output_max_length
        output_length s).output
      = some (data_stream D (p.ioaddr + K.PNIC_REG_DATA)
          (min (device_length K D p command input input_length s) (u16 output_max_length))
          (device_after_length K D p command input input_length s)
          ++ out.drop (min (device_length K D p command input input_length s)
              (u16 output_max_length))) := by
  have hmin : ∀ a b : Nat, (if a > b then b else a) = min a b := by
    intro a b; split <;> omega
  simp only [pnic_command_quiet, hmin]
  rw [read_output_mem]
  · simp [device_length, device_after_length]
  · have := Nat.min_le_right
      (u16 (D.inw (D.inw (pnic_issue K D p (u16 command) input (u16 input_length) s).1
        (p.ioaddr + K.PNIC_REG_STAT)).2 (p.ioaddr + K.PNIC_REG_LEN)).1)
      (u16 output_max_length)
    omega

theorem inb_values_append (port : Nat) (a b : List Event) :
    inb_values port (a ++ b) = inb_values port a ++ inb_values port b := by
  simp [inb_values]

theorem inb_values_map_inb (port : Nat) (l : List Nat) :
    inb_values port (l.map (fun v => Event.inb port v)) = l := by
  induction l with
  | nil => rfl
  | cons a l ih =>
    simp only [inb_values, List.map_cons, List.filterMap_cons] at ih ⊢
    simp [ih]

theorem inb_values_issue {σ : Type} (port : Nat) (K : Consts) (D : Device σ) (p : pnic)
    (command : Nat) (input : Option (Nat → Nat)) (input_length : Nat) (s : σ) :
    inb_values port (pnic_issue K D p command input input_length s).2 = [] := by
  rw [pnic_issue_events]
  cases input with
  | none => rfl
  | some inp =>
    simp only [inb_values, List.filterMap_append, List.filterMap_cons, List.filterMap_nil,
      List.append_nil, List.filterMap_map]
    apply List.filterMap_eq_nil_iff.mpr
    intro a _
    rfl

theorem pnic_command_quiet_inb {σ : Type} (K : Consts) (D : Device σ) (p : pnic)
    (command : Nat) (input : Option (Nat → Nat)) (input_length : Nat)
    (output : Option (List Nat)) (output_max_length : Nat)
    (output_length : Option Nat) (s : σ) :
    inb_values (p.ioaddr + K.PNIC_REG_DATA)
      (pnic_command_quiet K D p command input input_length output output_max_length
        output_length s).events
      = data_stream D (p.ioaddr + K.PNIC_REG_DATA)
          (match output with
           | some _ => min (device_length K D p command input input_length s)
                         (u16 output_max_length)
           | none => 0)
          (device_after_length K D p command input input_length s) := by
  rw [pnic_command_quiet_events]
  simp only [inb_values_append, inb_values_map_inb, inb_values_issue]
  have e1 : ∀ (c : Prop) [Decidable c] (d : Diag),
      inb_values (p.ioaddr + K.PNIC_REG_DATA) (if c then [Event.printf d] else []) = [] := by
    intro c _ d; split <;> rfl
  rw [e1, e1]
  rfl

/-! ## The transaction engine -/

/-- C2: the register operations of `pnic_command_quiet` occur in this order:
with input, the 16-bit write of `input_length` to the length register and
the byte writes of `input[0]`, `input[1]`, ... to the data register; then
the write of the command code to the command register, the read of the
status register, the read of the length register, and the byte reads from
the data register.  Without input the first operation is the command
write. -/
theorem pnic_command_quiet_register_order {σ : Type} (K : Consts) (D : Device σ)
    (p : pnic) (command : Nat) (input : Option (Nat → Nat)) (input_length : Nat)
    (output : Option (List Nat)) (output_max_length : Nat)
    (output_length : Option Nat) (s : σ) :
    (pnic_command_quiet K D p command input input_length output output_max_length
        output_length s).events.filter Event.isReg
      = (match input with
         | some inp =>
           Event.outw (u16 input_length) (p.ioaddr + K.PNIC_REG_LEN) ::
             (List.range (u16 input_length)).map
               (fun i => Event.outb (u8 (inp i)) (p.ioaddr + K.PNIC_REG_DATA))
         | none => [])
        ++ [Event.outw (u16 command) (p.ioaddr + K.PNIC_REG_CMD),
            Event.inw (p.ioaddr + K.PNIC_REG_STAT)
              (pnic_command_quiet K D p command input input_length output
                output_max_length output_length s).status,
            Event.inw (p.ioaddr + K.PNIC_REG_LEN)
              (device_length K D p command input input_length s)]
        ++ (data_stream D (p.ioaddr + K.PNIC_REG_DATA)
              (match output with
               | some _ => min (device_length K D p command input input_length s)
                             (u16 output_max_length)
               | none => 0)
              (device_after_length K D p command input input_length s)).map
            (fun v => Event.inb (p.ioaddr + K.PNIC_REG_DATA) v) := by
  have e1 : ∀ (c : Prop) [Decidable c] (d : Diag),
      List.filter Event.isReg (if c then [Event.printf d] else []) = [] := by
    intro c _ d; split <;> rfl
  rw [pnic_command_quiet_events, pnic_issue_events, pnic_command_quiet_status]
  simp only [List.filter_append, e1, filter_isReg_inb, List.append_nil]
  cases input with
  | none => simp [Event.isReg]
  | some inp =>
    simp only [List.filter_cons, Event.isReg, if_true, filter_isReg_outb, List.filter_nil,
      List.cons_append, List.append_assoc, List.nil_append, List.singleton_append]

/-- C3: when the device declares an output length `d` that fits the
capacity `c` of the output buffer, `pnic_command_quiet` reads exactly `d`
bytes from the data register, stores them in order in `output[0..d-1]`,
leaves the rest of the buffer unchanged, and returns the value read from
the status register. -/
theorem pnic_command_quiet_fits {σ : Type} (K : Consts) (D : Device σ)
    (p : pnic) (command : Nat) (input : Option (Nat → Nat)) (input_length : Nat)
    (out : List Nat) (output_max_length : Nat) (output_length : Option Nat) (s : σ)
    (hd : device_length K D p command input input_length s ≤ u16 output_max_length)
    (hcap : u16 output_max_length ≤ out.length) :
    inb_values (p.ioaddr + K.PNIC_REG_DATA)
        (pnic_command_quiet K D p command input input_length (some out)
          output_max_length output_length s).events
      = data_stream D (p.ioaddr + K.PNIC_REG_DATA)
          (device_length K D p command input input_length s)
          (device_after_length K D p command input input_length s)
    ∧ (data_stream D (p.ioaddr + K.PNIC_REG_DATA)
          (device_length K D p command input input_length s)
          (device_after_length K D p command input input_length s)).length
        = device_length K D p command input input_length s
    ∧ (pnic_command_quiet K D p command input input_length (some out)
          output_max_length output_length s).output
        = some (data_stream D (p.ioaddr + K.PNIC_REG_DATA)
            (device_length K D p command input input_length s)
            (device_after_length K D p command input input_length s)
            ++ out.drop (device_length K D p command input input_length s))
    ∧ (pnic_command_quiet K D p command input input_length (some out)
          output_max_length output_length s).status
        = device_status K D p command input input_length s
    ∧ Event.inw (p.ioaddr + K.PNIC_REG_STAT)
          (pnic_command_quiet K D p command input input_length (some out)
            output_max_length output_length s).status
        ∈ (pnic_command_quiet K D p command input input_length (some out)
            output_max_length output_length s).events := by
  refine ⟨?_, data_stream_length _ _ _ _, ?_, pnic_command_quiet_status _ _ _ _ _ _ _ _ _ _, ?_⟩
  · rw [pnic_command_quiet_inb]
    simp only [Nat.min_eq_left hd]
  · rw [pnic_command_quiet_output _ _ _ _ _ _ _ _ _ _ hcap, Nat.min_eq_left hd]
  · rw [pnic_command_quiet_events, pnic_command_quiet_status]
    simp

/-- Witness of C3: a device that declares 2 bytes, read into a buffer of
capacity 3. -/
theorem pnic_command_quiet_fits_witness :
    (device_length sampleConsts (constDevice sampleConsts 0x300 0x4f4b 2 7) ⟨0x300⟩
        1 none 0 () ≤ u16 3
      ∧ u16 3 ≤ [0, 0, 9].length)
    ∧ (pnic_command_quiet sampleConsts (constDevice sampleConsts 0x300 0x4f4b 2 7)
          ⟨0x300⟩ 1 none 0 (some [0, 0, 9]) 3 none ()).output = some ([7, 7] ++ [9]) := by
  refine ⟨⟨by decide, by decide⟩, ?_⟩
  have h := (pnic_command_quiet_fits sampleConsts (constDevice sampleConsts 0x300 0x4f4b 2 7)
    ⟨0x300⟩ 1 none 0 [0, 0, 9] 3 none () (by decide) (by decide)).2.2.1
  rw [h]
  decide

/-- C4: when the device declares an output length `d` greater than the
capacity `c` of the output buffer, `pnic_command_quiet` prints the
"output buffer too small" diagnostic, reads exactly `c` bytes from the data
register into `output[0..c-1]`, writes no byte at an index from `c` on, and
returns the device's status. -/
theorem pnic_command_quiet_clamps {σ : Type} (K : Consts) (D : Device σ)
    (p : pnic) (command : Nat) (input : Option (Nat → Nat)) (input_length : Nat)
    (out : List Nat) (output_max_length : Nat) (output_length : Option Nat) (s : σ)
    (hd : device_length K D p command input input_length s > u16 output_max_length)
    (hcap : u16 output_max_length ≤ out.length) :
    Event.printf (Diag.output_buffer_too_small (u16 command) (u16 output_max_length)
          (device_length K D p command input input_length s))
        ∈ (pnic_command_quiet K D p command input input_length (some out)
            output_max_length output_length s).events
    ∧ inb_values (p.ioaddr + K.PNIC_REG_DATA)
        (pnic_command_quiet K D p command input input_length (some out)
          output_max_length output_length s).events
      = data_stream D (p.ioaddr + K.PNIC_REG_DATA) (u16 output_max_length)
          (device_after_length K D p command input input_length s)
    ∧ (data_stream D (p.ioaddr + K.PNIC_REG_DATA) (u16 output_max_length)
          (device_after_length K D p command input input_length s)).length
        = u16 output_max_length
    ∧ (pnic_command_quiet K D p command input input_length (some out)
          output_max_length output_length s).output
        = some (data_stream D (p.ioaddr + K.PNIC_REG_DATA) (u16 output_max_length)
            (device_after_length K D p command input input_length s)
            ++ out.drop (u16 output_max_length))
    ∧ (pnic_command_quiet K D p command input input_length (some out)
          output_max_length output_length s).status
        = device_status K D p command input input_length s := by
  have hmin : min (device_length K D p command input input_length s)
      (u16 output_max_length) = u16 output_max_length := Nat.min_eq_right (Nat.le_of_lt hd)
  refine ⟨?_, ?_, data_stream_length _ _ _ _, ?_, pnic_command_quiet_status _ _ _ _ _ _ _ _ _ _⟩
  · rw [pnic_command_quiet_events]
    simp [hd]
  · rw [pnic_command_quiet_inb]
    simp only [hmin]
  · rw [pnic_command_quiet_output _ _ _ _ _ _ _ _ _ _ hcap, hmin]

/-- Witness of C4: a device that declares 5 bytes, read into a buffer of
which 2 bytes are offered. -/
theorem pnic_command_quiet_clamps_witness :
    (device_length sampleConsts (constDevice sampleConsts 0x300 0x4f4b 5 7) ⟨0x300⟩
        1 none 0 () > u16 2
      ∧ u16 2 ≤ [0, 0, 9].length)
    ∧ (pnic_command_quiet sampleConsts (constDevice sampleConsts 0x300 0x4f4b 5 7)
          ⟨0x300⟩ 1 none 0 (some [0, 0, 9]) 2 none ()).output = some ([7, 7] ++ [9]) := by
  refine ⟨⟨by decide, by decide⟩, ?_⟩
  have h := (pnic_command_quiet_clamps sampleConsts
    (constDevice sampleConsts 0x300 0x4f4b 5 7)
    ⟨0x300⟩ 1 none 0 [0, 0, 9] 2 none () (by decide) (by decide)).2.2.2.1
  rw [h]
  decide

/-! ## Transactions cause register accesses and diagnostics only -/

theorem pnic_command_quiet_kind {σ : Type} (K : Consts) (D : Device σ) (p : pnic)
    (command : Nat) (input : Option (Nat → Nat)) (input_length : Nat)
    (output : Option (List Nat)) (output_max_length : Nat)
    (output_length : Option Nat) (s : σ) :
    ∀ e ∈ (pnic_command_quiet K D p command input input_length output output_max_length
        output_length s).events, e.isReg = true ∨ e.isPrintf = true := by
  intro e he
  rw [pnic_command_quiet_events, pnic_issue_events] at he
  simp only [List.mem_append, List.mem_map, List.mem_cons, List.mem_singleton,
    List.not_mem_nil, or_false] at he
  rcases he with ((((h | h) | h) | h) | h) | h
  · cases input with
    | none => simp at h
    | some inp =>
      simp only [List.mem_cons, List.mem_map] at h
      rcases h with h | ⟨i, _, h⟩
      · subst h; exact Or.inl rfl
      · subst h; exact Or.inl rfl
  · subst h; exact Or.inl rfl
  · rcases h with h | h
    · subst h; exact Or.inl rfl
    · subst h; exact Or.inl rfl
  · split at h
    · simp only [List.mem_singleton] at h; subst h; exact Or.inr rfl
    · simp at h
  · split at h
    · simp only [List.mem_singleton] at h; subst h; exact Or.inr rfl
    · simp at h
  · rcases h with ⟨v, _, h⟩
    subst h; exact Or.inl rfl

theorem pnic_command_kind {σ : Type} (K : Consts) (D : Device σ) (p : pnic)
    (command : Nat) (input : Option (Nat → Nat)) (input_length : Nat)
    (output : Option (List Nat)) (output_max_length : Nat)
    (output_length : Option Nat) (s : σ) :
    ∀ e ∈ (pnic_command K D p command input input_length output output_max_length
        output_length s).events, e.isReg = true ∨ e.isPrintf = true := by
  intro e he
  unfold pnic_command at he
  simp only at he
  split at he
  · exact pnic_command_quiet_kind _ _ _ _ _ _ _ _ _ _ e he
  · simp only [List.mem_append, List.mem_singleton] at he
    rcases he with he | he
    · exact pnic_command_quiet_kind _ _ _ _ _ _ _ _ _ _ e he
    · subst he; exact Or.inr rfl

theorem releases_eq_nil (l : List Event)
    (h : ∀ e ∈ l, e.isReg = true ∨ e.isPrintf = true) : releases l = [] := by
  apply List.filterMap_eq_nil_iff.mpr
  intro e he
  rcases h e he with h | h <;> cases e <;> simp_all [Event.isReg, Event.isPrintf]

theorem deliveries_eq_nil (l : List Event)
    (h : ∀ e ∈ l, e.isReg = true ∨ e.isPrintf = true) : deliveries l = [] := by
  apply List.filterMap_eq_nil_iff.mpr
  intro e he
  rcases h e he with h | h <;> cases e <;> simp_all [Event.isReg, Event.isPrintf]

/-! ## The transmit path -/

/-- C1, the code at a buffer holding the four bytes `de ad be ef`: the
length register receives 4, but the bytes streamed to the data register are
the first four bytes of the memory at the address of the buffer structure
(here `00 00 10 00`), not the valid data of the buffer. -/
theorem pnic_transmit_streams_object_memory :
    (pnic_transmit sampleConsts (constDevice sampleConsts 0x300 0x4f4b 0 0)
        ⟨⟨0x300⟩, [0x52, 0x54, 0, 0x12, 0x34, 0x56]⟩
        ⟨[0xde, 0xad, 0xbe, 0xef], 0, 4⟩
        (fun i => [0x00, 0x00, 0x10, 0x00, 0x00, 0x00, 0x10, 0x00].getD i 0) ()).2.2
      = [Event.outw 4 0x302,
         Event.outb 0x00 0x304, Event.outb 0x00 0x304,
         Event.outb 0x10 0x304, Event.outb 0x00 0x304,
         Event.outw 4 0x300,
         Event.inw 0x300 0x4f4b, Event.inw 0x302 0,
         Event.free_pkb ⟨[0xde, 0xad, 0xbe, 0xef], 0, 4⟩]
    ∧ pkb_data ⟨[0xde, 0xad, 0xbe, 0xef], 0, 4⟩ = [0xde, 0xad, 0xbe, 0xef] := by
  constructor <;> decide

/-- C7: whatever the device answers to the transmit transaction,
`pnic_transmit` releases the buffer exactly once, after the transaction,
and returns 0. -/
theorem pnic_transmit_releases_once {σ : Type} (K : Consts) (D : Device σ)
    (netdev : net_device) (pkb : pk_buff) (pkb_object : Nat → Nat) (s : σ) :
    (pnic_transmit K D netdev pkb pkb_object s).1 = 0
    ∧ (pnic_transmit K D netdev pkb pkb_object s).2.2
        = (pnic_command K D netdev.priv K.PNIC_CMD_XMIT (some pkb_object)
            (pkb_len pkb) none 0 none s).events ++ [Event.free_pkb pkb]
    ∧ releases (pnic_command K D netdev.priv K.PNIC_CMD_XMIT (some pkb_object)
            (pkb_len pkb) none 0 none s).events = []
    ∧ releases (pnic_transmit K D netdev pkb pkb_object s).2.2 = [pkb] := by
  have h := releases_eq_nil _ (pnic_command_kind K D netdev.priv K.PNIC_CMD_XMIT
    (some pkb_object) (pkb_len pkb) none 0 none s)
  refine ⟨rfl, rfl, h, ?_⟩
  show releases (_ ++ [Event.free_pkb pkb]) = [pkb]
  unfold releases at h ⊢
  rw [List.filterMap_append, h]
  rfl

/-! ## Ethernet -/

theorem range_map_getD (l : List Nat) (n : Nat) (h : l.length = n) :
    (List.range n).map (fun i => l.getD i 0) = l := by
  subst h
  apply List.ext_getElem
  · simp
  · intro i h1 h2
    simp only [List.getElem_map, List.getElem_range]
    exact List.getD_eq_getElem l 0 h2

theorem memcpy_eq (mem : List Nat) (dest : Nat) (src : List Nat) (n : Nat)
    (h : src.length = n) : memcpy mem dest src n = mem_write mem dest src := by
  unfold memcpy
  rw [range_map_getD src n h]

theorem mem_write_append (mem a b : List Nat) (off : Nat)
    (h : off + a.length ≤ mem.length) :
    mem_write (mem_write mem off a) (off + a.length) b = mem_write mem off (a ++ b) := by
  unfold mem_write
  have hl : (List.take off mem ++ a).length = off + a.length := by
    rw [List.length_append, List.length_take]; omega
  rw [List.take_left' hl]
  have hd : List.drop (off + a.length + b.length)
      (List.take off mem ++ a ++ List.drop (off + a.length) mem)
      = List.drop (off + a.length + b.length) mem := by
    rw [← hl, List.drop_append, hl, List.drop_drop]
  rw [hd]
  simp [Nat.add_assoc]

theorem le16_val_bytes (v : Nat) (h : v < 65536) : le16_val (le16_bytes v) = v := by
  simp only [le16_val, le16_bytes, List.getD_cons_zero, List.getD_cons_succ]
  omega

/-- The memory of the buffer `eth_tx` hands on: the header, followed by
what was there from the old data pointer on. -/
theorem eth_tx_frame (tx : net_device → pk_buff → Int) (pkb : pk_buff)
    (netdev : net_device) (np : net_protocol) (ll_dest : List Nat)
    (hwf : pkb_wf pkb) (hroom : ETH_HLEN ≤ pkb.data)
    (hD : ll_dest.length = ETH_ALEN) (hS : netdev.ll_addr.length = ETH_ALEN) :
    eth_tx tx pkb netdev np ll_dest
      = some (tx netdev
          ⟨pkb.mem.take (pkb.data - ETH_HLEN) ++
            (ll_dest ++ netdev.ll_addr ++ le16_bytes np.net_proto) ++ pkb.mem.drop pkb.data,
           pkb.data - ETH_HLEN, pkb.tail⟩,
          ⟨pkb.mem.take (pkb.data - ETH_HLEN) ++
            (ll_dest ++ netdev.ll_addr ++ le16_bytes np.net_proto) ++ pkb.mem.drop pkb.data,
           pkb.data - ETH_HLEN, pkb.tail⟩,
          [Event.netdev_tx
            ⟨pkb.mem.take (pkb.data - ETH_HLEN) ++
              (ll_dest ++ netdev.ll_addr ++ le16_bytes np.net_proto) ++ pkb.mem.drop pkb.data,
             pkb.data - ETH_HLEN, pkb.tail⟩]) := by
  obtain ⟨h1, h2⟩ := hwf
  unfold ETH_HLEN at hroom
  unfold ETH_ALEN at hD hS
  have hm : mem_write
      (memcpy (memcpy pkb.mem (pkb.data - ETH_HLEN) ll_dest ETH_ALEN)
        (pkb.data - ETH_HLEN + ETH_ALEN) netdev.ll_addr ETH_ALEN)
      (pkb.data - ETH_HLEN + 2 * ETH_ALEN) (le16_bytes np.net_proto)
      = pkb.mem.take (pkb.data - ETH_HLEN) ++
          (ll_dest ++ netdev.ll_addr ++ le16_bytes np.net_proto) ++ pkb.mem.drop pkb.data := by
    rw [memcpy_eq _ _ ll_dest _ (by unfold ETH_ALEN; exact hD),
      memcpy_eq _ _ netdev.ll_addr _ (by unfold ETH_ALEN; exact hS)]
    have e1 : pkb.data - ETH_HLEN + ETH_ALEN = pkb.data - ETH_HLEN + ll_dest.length := by
      rw [hD]; rfl
    rw [e1, mem_write_append _ _ _ _ (by unfold ETH_HLEN; omega)]
    have e2 : pkb.data - ETH_HLEN + 2 * ETH_ALEN
        = pkb.data - ETH_HLEN + (ll_dest ++ netdev.ll_addr).length := by
      rw [List.length_append, hD, hS]; rfl
    rw [e2, mem_write_append _ _ _ _
      (by rw [List.length_append, hD, hS]; unfold ETH_HLEN; omega)]
    unfold mem_write
    have e3 : pkb.data - ETH_HLEN
        + (ll_dest ++ netdev.ll_addr ++ le16_bytes np.net_proto).length = pkb.data := by
      simp only [List.length_append, hD, hS, le16_bytes, List.length_cons, List.length_nil]
      unfold ETH_HLEN; omega
    rw [e3]
  simp only [eth_tx, pkb_push]
  rw [if_pos (by unfold ETH_HLEN; exact hroom)]
  simp only [hm]

/-- C9: on a buffer with less than 14 bytes of valid data, `eth_rx` makes no
upstream dispatch, leaves the buffer as it is, and does nothing but print
the debug message. -/
theorem eth_rx_short (pkb : pk_buff) (netdev : net_device)
    (h : pkb_len pkb < 14) :
    dispatches (eth_rx pkb netdev).2 = []
    ∧ (eth_rx pkb netdev).1 = pkb
    ∧ (eth_rx pkb netdev).2 = [Event.printf (Diag.packet_too_short (pkb_len pkb))] := by
  have h1 : pkb_len pkb < ETH_HLEN := h
  have he : eth_rx pkb netdev
      = (pkb, [Event.printf (Diag.packet_too_short (pkb_len pkb))]) := by
    simp only [eth_rx, if_pos h1]
  rw [he]
  exact ⟨rfl, rfl, rfl⟩

/-- Witness of C9: a buffer with 13 bytes of valid data. -/
theorem eth_rx_short_witness :
    pkb_len ⟨List.replicate 20 0, 2, 15⟩ < 14
    ∧ dispatches (eth_rx ⟨List.replicate 20 0, 2, 15⟩ ⟨⟨0x300⟩, []⟩).2 = [] :=
  ⟨by decide, (eth_rx_short ⟨List.replicate 20 0, 2, 15⟩ ⟨⟨0x300⟩, []⟩ (by decide)).1⟩

/-- C10: on a buffer with `L >= 14` bytes of valid data, `eth_rx` dispatches
upstream exactly once; the payload is bytes `14..L-1` of the original data
(length `L - 14`), the source address is the original bytes `6..11`, and
the type is the 16-bit field held by the original bytes `12..13`. -/
theorem eth_rx_dispatch (pkb : pk_buff) (netdev : net_device)
    (h : 14 ≤ pkb_len pkb) :
    dispatches (eth_rx pkb netdev).2
      = [((eth_rx pkb netdev).1,
          le16_val (((pkb_data pkb).drop 12).take 2),
          ((pkb_data pkb).drop 6).take 6)]
    ∧ (eth_rx pkb netdev).2
      = [Event.net_rx (eth_rx pkb netdev).1
          (le16_val (((pkb_data pkb).drop 12).take 2))
          (((pkb_data pkb).drop 6).take 6)]
    ∧ pkb_data (eth_rx pkb netdev).1 = (pkb_data pkb).drop 14
    ∧ pkb_len (eth_rx pkb netdev).1 = pkb_len pkb - 14 := by
  have h1 : ¬ pkb_len pkb < ETH_HLEN := by unfold ETH_HLEN; omega
  have hs : List.take 6 (List.drop 6 (pkb_data pkb))
      = List.take ETH_ALEN (List.drop (pkb.data + ETH_ALEN) pkb.mem) := by
    unfold pkb_data ETH_ALEN
    rw [List.drop_take, List.take_take, List.drop_drop]
    congr 1; omega
  have ht : List.take 2 (List.drop 12 (pkb_data pkb))
      = List.take 2 (List.drop (pkb.data + 2 * ETH_ALEN) pkb.mem) := by
    unfold pkb_data ETH_ALEN
    rw [List.drop_take, List.take_take, List.drop_drop]
    congr 1; omega
  have hp : pkb_data (pkb_pull pkb ETH_HLEN) = (pkb_data pkb).drop 14 := by
    unfold pkb_data pkb_pull pkb_len ETH_HLEN
    simp only
    rw [List.drop_take, List.drop_drop]
    congr 1
  have hl : pkb_len (pkb_pull pkb ETH_HLEN) = pkb_len pkb - 14 := by
    unfold pkb_pull pkb_len ETH_HLEN
    simp only
    omega
  have he : eth_rx pkb netdev
      = (pkb_pull pkb ETH_HLEN,
         [Event.net_rx (pkb_pull pkb ETH_HLEN)
           (le16_val (((pkb_data pkb).drop 12).take 2))
           (((pkb_data pkb).drop 6).take 6)]) := by
    simp only [eth_rx, if_neg h1, hs, ht]
    rfl
  rw [he]
  exact ⟨rfl, rfl, hp, hl⟩

/-- Witness of C10: a buffer with exactly 14 bytes of valid data. -/
theorem eth_rx_dispatch_witness :
    14 ≤ pkb_len ⟨[9, 1, 1, 1, 1, 1, 1, 2, 3, 4, 5, 6, 7, 8, 6, 9], 1, 15⟩
    ∧ dispatches (eth_rx ⟨[9, 1, 1, 1, 1, 1, 1, 2, 3, 4, 5, 6, 7, 8, 6, 9], 1, 15⟩
          ⟨⟨0x300⟩, []⟩).2
      = [(⟨[9, 1, 1, 1, 1, 1, 1, 2, 3, 4, 5, 6, 7, 8, 6, 9], 15, 15⟩,
          0x0608, [2, 3, 4, 5, 6, 7])] := by
  refine ⟨by decide, ?_⟩
  have h := (eth_rx_dispatch ⟨[9, 1, 1, 1, 1, 1, 1, 2, 3, 4, 5, 6, 7, 8, 6, 9], 1, 15⟩
    ⟨⟨0x300⟩, []⟩ (by decide)).1
  rw [h]
  decide

theorem header_parts (d s t rest : List Nat)
    (hd : d.length = 6) (hs : s.length = 6) (ht : t.length = 2) :
    ((d ++ s ++ t) ++ rest).take 6 = d
    ∧ (((d ++ s ++ t) ++ rest).drop 6).take 6 = s
    ∧ (((d ++ s ++ t) ++ rest).drop 12).take 2 = t
    ∧ ((d ++ s ++ t) ++ rest).drop 14 = rest := by
  refine ⟨?_, ?_, ?_, ?_⟩
  · rw [List.append_assoc, List.append_assoc]
    exact List.take_left' hd
  · rw [List.append_assoc, List.append_assoc, List.drop_left' hd]
    exact List.take_left' hs
  · have h12 : (d ++ s).length = 12 := by rw [List.length_append, hd, hs]
    rw [List.append_assoc, List.drop_left' h12]
    exact List.take_left' ht
  · have h14 : (d ++ s ++ t).length = 14 := by
      rw [List.length_append, List.length_append, hd, hs, ht]
    exact List.drop_left' h14

/-- C8: encoding a payload with `eth_tx` and decoding the buffer it hands
to the transmit path with `eth_rx` dispatches upstream exactly once, with
the payload, the sender's link-layer address and the protocol type
unchanged; the encoded frame starts with the destination address. -/
theorem eth_tx_rx_roundtrip (tx : net_device → pk_buff → Int) (pkb : pk_buff)
    (netdev peer : net_device) (np : net_protocol) (ll_dest : List Nat)
    (hwf : pkb_wf pkb) (hroom : ETH_HLEN ≤ pkb.data)
    (hD : ll_dest.length = ETH_ALEN) (hS : netdev.ll_addr.length = ETH_ALEN)
    (hT : np.net_proto < 65536) :
    ∃ frame : pk_buff,
      eth_tx tx pkb netdev np ll_dest
        = some (tx netdev frame, frame, [Event.netdev_tx frame])
      ∧ (pkb_data frame).take 6 = ll_dest
      ∧ dispatches (eth_rx frame peer).2
          = [((eth_rx frame peer).1, np.net_proto, netdev.ll_addr)]
      ∧ pkb_data (eth_rx frame peer).1 = pkb_data pkb := by
  refine ⟨_, eth_tx_frame tx pkb netdev np ll_dest hwf hroom hD hS, ?_⟩
  obtain ⟨h1, h2⟩ := hwf
  unfold ETH_HLEN at hroom
  have hlen : (List.take (pkb.data - ETH_HLEN) pkb.mem).length = pkb.data - ETH_HLEN := by
    rw [List.length_take]; unfold ETH_HLEN; omega
  have hh : (ll_dest ++ netdev.ll_addr ++ le16_bytes np.net_proto).length = 14 := by
    simp only [List.length_append, hD, hS, le16_bytes, List.length_cons, List.length_nil]
    rfl
  have hdata : pkb_data
      ⟨pkb.mem.take (pkb.data - ETH_HLEN) ++
        (ll_dest ++ netdev.ll_addr ++ le16_bytes np.net_proto) ++ pkb.mem.drop pkb.data,
       pkb.data - ETH_HLEN, pkb.tail⟩
      = (ll_dest ++ netdev.ll_addr ++ le16_bytes np.net_proto) ++ pkb_data pkb := by
    unfold pkb_data pkb_len
    simp only
    rw [List.append_assoc, List.drop_left' hlen, List.take_append_eq_append_take, hh,
      List.take_of_length_le (by rw [hh]; unfold ETH_HLEN; omega)]
    congr 2
    unfold ETH_HLEN; omega
  have hl14 : 14 ≤ pkb_len
      ⟨pkb.mem.take (pkb.data - ETH_HLEN) ++
        (ll_dest ++ netdev.ll_addr ++ le16_bytes np.net_proto) ++ pkb.mem.drop pkb.data,
       pkb.data - ETH_HLEN, pkb.tail⟩ := by
    unfold pkb_len ETH_HLEN
    simp only
    omega
  obtain ⟨p1, p2, p3, p4⟩ := header_parts ll_dest netdev.ll_addr (le16_bytes np.net_proto)
    (pkb_data pkb) hD hS rfl
  obtain ⟨r1, _, r3, _⟩ := eth_rx_dispatch _ peer hl14
  rw [hdata] at r1 r3 ⊢
  rw [p2, p3, le16_val_bytes _ hT] at r1
  rw [p4] at r3
  exact ⟨p1, r1, r3⟩

/-- Witness of C8: a two-byte payload behind 14 bytes of head room. -/
theorem eth_tx_rx_roundtrip_witness :
    (pkb_wf ⟨List.replicate 14 0 ++ [0xab, 0xcd], 14, 16⟩
      ∧ ETH_HLEN ≤ 14
      ∧ [0xff, 0xff, 0xff, 0xff, 0xff, 0xff].length = ETH_ALEN
      ∧ [0x52, 0x54, 0x00, 0x12, 0x34, 0x56].length = ETH_ALEN
      ∧ 0x0008 < 65536)
    ∧ ∃ frame : pk_buff,
      eth_tx (fun _ _ => 0) ⟨List.replicate 14 0 ++ [0xab, 0xcd], 14, 16⟩
          ⟨⟨0x300⟩, [0x52, 0x54, 0x00, 0x12, 0x34, 0x56]⟩ ⟨0x0008⟩
          [0xff, 0xff, 0xff, 0xff, 0xff, 0xff]
        = some (0, frame, [Event.netdev_tx frame])
      ∧ (pkb_data frame).take 6 = [0xff, 0xff, 0xff, 0xff, 0xff, 0xff]
      ∧ dispatches (eth_rx frame ⟨⟨0x300⟩, []⟩).2
          = [((eth_rx frame ⟨⟨0x300⟩, []⟩).1, 0x0008, [0x52, 0x54, 0x00, 0x12, 0x34, 0x56])]
      ∧ pkb_data (eth_rx frame ⟨⟨0x300⟩, []⟩).1
          = pkb_data ⟨List.replicate 14 0 ++ [0xab, 0xcd], 14, 16⟩ :=
  ⟨⟨by decide, by decide, by decide, by decide, by decide⟩,
   eth_tx_rx_roundtrip (fun _ _ => 0) ⟨List.replicate 14 0 ++ [0xab, 0xcd], 14, 16⟩
     ⟨⟨0x300⟩, [0x52, 0x54, 0x00, 0x12, 0x34, 0x56]⟩ ⟨⟨0x300⟩, []⟩ ⟨0x0008⟩
     [0xff, 0xff, 0xff, 0xff, 0xff, 0xff]
     (by decide) (by decide) (by decide) (by decide) (by decide)⟩

/-! ## Transactions against the simulated device -/

theorem u16_of_lt (n : Nat) (h : n < 65536) : u16 n = n := Nat.mod_eq_of_lt h

theorem sim_data_stream (K : Consts) (base n : Nat) (s : SimPnic)
    (hn : n ≤ s.out.length) (hb : ∀ b ∈ s.out, b < 256) :
    data_stream (simPnic K base) (base + K.PNIC_REG_DATA) n s = s.out.take n := by
  induction n generalizing s with
  | zero => simp [data_stream]
  | succ n ih =>
    obtain ⟨q, st, ln, out⟩ := s
    cases out with
    | nil => simp at hn
    | cons a l =>
      have ha : a < 256 := hb a (List.mem_cons_self a l)
      have hl : ∀ b ∈ l, b < 256 := fun b hb1 => hb b (List.mem_cons_of_mem a hb1)
      have hn1 : n ≤ l.length := by simpa using hn
      have := ih ⟨q, st, ln, l⟩ hn1 hl
      simp only [data_stream, simPnic, if_true, List.headD_cons, List.tail_cons,
        List.take_succ_cons, u8, Nat.mod_eq_of_lt ha]
      simp only [simPnic] at this
      rw [this]

theorem sim_read_output_queue (K : Consts) (base port n i : Nat) (out : List Nat)
    (s : SimPnic) :
    (read_output (simPnic K base) port n i out s).2.1.queue = s.queue := by
  induction n generalizing i out s with
  | zero => rfl
  | succ n ih =>
    simp only [read_output]
    rw [ih]
    simp only [simPnic]
    split <;> rfl

theorem sim_issue_qlen (K : Consts) (base : Nat) (s : SimPnic) :
    (pnic_issue K (simPnic K base) ⟨base⟩ (u16 K.PNIC_CMD_RECV_QLEN) none (u16 0) s).1
      = { s with status := K.PNIC_STATUS_OK, length := 2,
                 out := le16_bytes s.queue.length } := by
  simp [pnic_issue, simPnic]

theorem sim_issue_recv (K : Consts) (base : Nat) (s : SimPnic) (f : List Nat)
    (q : List (List Nat)) (hK : K.usable) (hq : s.queue = f :: q) :
    (pnic_issue K (simPnic K base) ⟨base⟩ (u16 K.PNIC_CMD_RECV) none (u16 0) s).1
      = { queue := q, status := K.PNIC_STATUS_OK, length := f.length, out := f } := by
  have h2 : ¬ u16 K.PNIC_CMD_RECV = u16 K.PNIC_CMD_RECV_QLEN := fun h => hK.2.1 h.symm
  simp [pnic_issue, simPnic, h2, hq]

/-- The queue-length transaction against the simulated device. -/
theorem sim_qlen (K : Consts) (base : Nat) (s : SimPnic) (qlen : Nat)
    (hK : K.usable) :
    (pnic_command K (simPnic K base) ⟨base⟩ K.PNIC_CMD_RECV_QLEN none 0
        (some (le16_bytes qlen)) 2 none s).status = K.PNIC_STATUS_OK
    ∧ (pnic_command K (simPnic K base) ⟨base⟩ K.PNIC_CMD_RECV_QLEN none 0
        (some (le16_bytes qlen)) 2 none s).output = some (le16_bytes s.queue.length)
    ∧ (pnic_command K (simPnic K base) ⟨base⟩ K.PNIC_CMD_RECV_QLEN none 0
        (some (le16_bytes qlen)) 2 none s).dev.queue = s.queue
    ∧ (pnic_command K (simPnic K base) ⟨base⟩ K.PNIC_CMD_RECV_QLEN none 0
        (some (le16_bytes qlen)) 2 none s).events = qlen_events K base s.queue.length := by
  obtain ⟨hreg, hcmd, hok⟩ := hK
  have hreg2 : ¬ base + K.PNIC_REG_LEN = base + K.PNIC_REG_STAT := by omega
  have hst : device_status K (simPnic K base) ⟨base⟩ K.PNIC_CMD_RECV_QLEN none 0 s
      = K.PNIC_STATUS_OK := by
    simp only [device_status, sim_issue_qlen]
    simp [simPnic, u16_of_lt _ hok]
  have hdl : device_length K (simPnic K base) ⟨base⟩ K.PNIC_CMD_RECV_QLEN none 0 s = 2 := by
    simp only [device_length, sim_issue_qlen]
    simp [simPnic, hreg2, u16]
  have hda : device_after_length K (simPnic K base) ⟨base⟩ K.PNIC_CMD_RECV_QLEN none 0 s
      = { s with status := K.PNIC_STATUS_OK, length := 2,
                 out := le16_bytes s.queue.length } := by
    simp only [device_after_length, sim_issue_qlen]
    simp [simPnic, hreg2]
  have hq : (pnic_command_quiet K (simPnic K base) ⟨base⟩ K.PNIC_CMD_RECV_QLEN none 0
      (some (le16_bytes qlen)) 2 none s).status = K.PNIC_STATUS_OK := by
    rw [pnic_command_quiet_status, hst]
  have hds : data_stream (simPnic K base) (base + K.PNIC_REG_DATA) 2
      { s with status := K.PNIC_STATUS_OK, length := 2, out := le16_bytes s.queue.length }
      = le16_bytes s.queue.length := by
    rw [sim_data_stream]
    · rfl
    · simp [le16_bytes]
    · intro b hb
      simp only [le16_bytes, List.mem_cons, List.mem_singleton, List.not_mem_nil,
        or_false] at hb
      rcases hb with hb | hb <;> omega
  have hu2 : u16 2 = 2 := rfl
  have hc : pnic_command K (simPnic K base) ⟨base⟩ K.PNIC_CMD_RECV_QLEN none 0
      (some (le16_bytes qlen)) 2 none s
      = pnic_command_quiet K (simPnic K base) ⟨base⟩ K.PNIC_CMD_RECV_QLEN none 0
      (some (le16_bytes qlen)) 2 none s := by
    unfold pnic_command
    simp only [hq, if_true]
  rw [hc]
  refine ⟨hq, ?_, ?_, ?_⟩
  · rw [pnic_command_quiet_output _ _ _ _ _ _ _ _ _ _ (by simp [le16_bytes, hu2])]
    simp only [hdl, hda, hu2, Nat.min_self, hds]
    simp [le16_bytes]
  · have : (pnic_command_quiet K (simPnic K base) ⟨base⟩ K.PNIC_CMD_RECV_QLEN none 0
        (some (le16_bytes qlen)) 2 none s).dev.queue
        = (device_after_length K (simPnic K base) ⟨base⟩ K.PNIC_CMD_RECV_QLEN none 0
            s).queue := by
      simp only [pnic_command_quiet, device_after_length]
      exact sim_read_output_queue _ _ _ _ _ _ _
    rw [this, hda]
  · rw [pnic_command_quiet_events, pnic_issue_events]
    simp only [hst, hdl, hda, hu2, Nat.min_self, hds]
    simp [qlen_events, le16_bytes]

/-- The receive transaction against the simulated device. -/
theorem sim_recv (K : Consts) (base : Nat) (s : SimPnic) (f : List Nat)
    (q : List (List Nat)) (mem : List Nat) (hK : K.usable) (hq : s.queue = f :: q)
    (hf : f.length ≤ u16 K.ETH_FRAME_LEN) (hb : ∀ b ∈ f, b < 256)
    (hmem : mem.length = K.ETH_FRAME_LEN) :
    (pnic_command K (simPnic K base) ⟨base⟩ K.PNIC_CMD_RECV none 0
        (some mem) K.ETH_FRAME_LEN (some 0) s).status = K.PNIC_STATUS_OK
    ∧ (pnic_command K (simPnic K base) ⟨base⟩ K.PNIC_CMD_RECV none 0
        (some mem) K.ETH_FRAME_LEN (some 0) s).output = some (f ++ mem.drop f.length)
    ∧ (pnic_command K (simPnic K base) ⟨base⟩ K.PNIC_CMD_RECV none 0
        (some mem) K.ETH_FRAME_LEN (some 0) s).output_length = some f.length
    ∧ (pnic_command K (simPnic K base) ⟨base⟩ K.PNIC_CMD_RECV none 0
        (some mem) K.ETH_FRAME_LEN (some 0) s).dev.queue = q
    ∧ (pnic_command K (simPnic K base) ⟨base⟩ K.PNIC_CMD_RECV none 0
        (some mem) K.ETH_FRAME_LEN (some 0) s).events = recv_events K base f := by
  have hK1 := hK
  obtain ⟨hreg, hcmd, hok⟩ := hK
  have hreg2 : ¬ base + K.PNIC_REG_LEN = base + K.PNIC_REG_STAT := by omega
  have hle : u16 K.ETH_FRAME_LEN ≤ K.ETH_FRAME_LEN := Nat.mod_le _ _
  have hlt : u16 K.ETH_FRAME_LEN < 65536 := Nat.mod_lt _ (by decide)
  have hfl : u16 f.length = f.length := u16_of_lt _ (by omega)
  have hst : device_status K (simPnic K base) ⟨base⟩ K.PNIC_CMD_RECV none 0 s
      = K.PNIC_STATUS_OK := by
    simp only [device_status, sim_issue_recv K base s f q hK1 hq]
    simp [simPnic, u16_of_lt _ hok]
  have hdl : device_length K (simPnic K base) ⟨base⟩ K.PNIC_CMD_RECV none 0 s
      = f.length := by
    simp only [device_length, sim_issue_recv K base s f q hK1 hq]
    simp [simPnic, hreg2, hfl]
  have hda : device_after_length K (simPnic K base) ⟨base⟩ K.PNIC_CMD_RECV none 0 s
      = { queue := q, status := K.PNIC_STATUS_OK, length := f.length, out := f } := by
    simp only [device_after_length, sim_issue_recv K base s f q hK1 hq]
    simp [simPnic, hreg2]
  have hq1 : (pnic_command_quiet K (simPnic K base) ⟨base⟩ K.PNIC_CMD_RECV none 0
      (some mem) K.ETH_FRAME_LEN (some 0) s).status = K.PNIC_STATUS_OK := by
    rw [pnic_command_quiet_status, hst]
  have hds : data_stream (simPnic K base) (base + K.PNIC_REG_DATA) f.length
      { queue := q, status := K.PNIC_STATUS_OK, length := f.length, out := f } = f := by
    rw [sim_data_stream K base f.length
      { queue := q, status := K.PNIC_STATUS_OK, length := f.length, out := f }
      (Nat.le_refl _) hb]
    exact List.take_length f
  have hc : pnic_command K (simPnic K base) ⟨base⟩ K.PNIC_CMD_RECV none 0
      (some mem) K.ETH_FRAME_LEN (some 0) s
      = pnic_command_quiet K (simPnic K base) ⟨base⟩ K.PNIC_CMD_RECV none 0
      (some mem) K.ETH_FRAME_LEN (some 0) s := by
    unfold pnic_command
    simp only [hq1, if_true]
  rw [hc]
  refine ⟨hq1, ?_, ?_, ?_, ?_⟩
  · rw [pnic_command_quiet_output _ _ _ _ _ _ _ _ _ _ (by omega)]
    simp only [hdl, hda, Nat.min_eq_left hf, hds]
  · rw [pnic_command_quiet_sink, hdl]
    rfl
  · have : (pnic_command_quiet K (simPnic K base) ⟨base⟩ K.PNIC_CMD_RECV none 0
        (some mem) K.ETH_FRAME_LEN (some 0) s).dev.queue
        = (device_after_length K (simPnic K base) ⟨base⟩ K.PNIC_CMD_RECV none 0
            s).queue := by
      simp only [pnic_command_quiet, device_after_length]
      exact sim_read_output_queue _ _ _ _ _ _ _
    rw [this, hda]
  · rw [pnic_command_quiet_events, pnic_issue_events]
    simp only [hst, hdl, hda, Nat.min_eq_left hf, hds]
    have hng : ¬ f.length > u16 K.ETH_FRAME_LEN := by omega
    simp [recv_events, hng]

/-! ## The receive pipeline against the simulated device -/

/-- One loop iteration that delivers the first queued frame. -/
theorem sim_poll_step (K : Consts) (A : Allocator) (netdev : net_device)
    (f : List Nat) (q : List (List Nat)) (s : SimPnic) (n qlen fuel : Nat)
    (hK : K.usable) (hq : s.queue = f :: q) (hlen : (f :: q).length < 65536)
    (hf : f.length ≤ u16 K.ETH_FRAME_LEN) (hb : ∀ b ∈ f, b < 256)
    (hA : A.ok n = true) :
    ∃ s1 : SimPnic, s1.queue = q ∧
      pnic_poll_loop K (simPnic K netdev.priv.ioaddr) A netdev (fuel + 1) s n qlen
        = (pnic_poll_loop K (simPnic K netdev.priv.ioaddr) A netdev fuel s1 (n + 1)
            (f :: q).length).map
          (PollResult.after
            (qlen_events K netdev.priv.ioaddr (f :: q).length
              ++ [Event.alloc_pkb K.ETH_FRAME_LEN true]
              ++ recv_events K netdev.priv.ioaddr f
              ++ [Event.netdev_rx (received_pkb K A n f)])) := by
  obtain ⟨a1, a2, a3, a4⟩ := sim_qlen K netdev.priv.ioaddr s qlen hK
  have hmem : (List.map (A.fill n) (List.range K.ETH_FRAME_LEN)).length = K.ETH_FRAME_LEN := by
    simp
  obtain ⟨b1, b2, b3, b4, b5⟩ := sim_recv K netdev.priv.ioaddr
    (pnic_command K (simPnic K netdev.priv.ioaddr) ⟨netdev.priv.ioaddr⟩
      K.PNIC_CMD_RECV_QLEN none 0 (some (le16_bytes qlen)) 2 none s).dev
    f q (List.map (A.fill n) (List.range K.ETH_FRAME_LEN)) hK (by rw [a3, hq]) hf hb hmem
  refine ⟨_, b4, ?_⟩
  have hne : ¬ (f :: q).length = 0 := by simp
  rw [pnic_poll_loop]
  simp only [a1, a2, a4, hq, ne_eq, not_true_eq_false, if_false, Option.getD_some,
    le16_val_bytes _ hlen, hne, alloc_pkb, hA, if_true, List.drop_zero, b1, b2, b3, b5,
    List.take_zero, List.nil_append, pkb_put, Nat.zero_add]
  rfl

theorem after_nil {σ : Type} (x : Option (PollResult σ)) :
    x.map (PollResult.after []) = x := by
  cases x <;> rfl

theorem after_after {σ : Type} (a b : List Event) (x : Option (PollResult σ)) :
    (x.map (PollResult.after b)).map (PollResult.after a)
      = x.map (PollResult.after (a ++ b)) := by
  cases x with
  | none => rfl
  | some r => simp [PollResult.after, List.append_assoc]

/-- The loop iterations that deliver the frames `fs` at the head of the
queue, when every allocation for them succeeds. -/
theorem sim_poll_head (K : Consts) (A : Allocator) (netdev : net_device)
    (hK : K.usable) (fs rest : List (List Nat)) :
    ∀ (s : SimPnic) (n qlen fuel : Nat),
      s.queue = fs ++ rest → (fs ++ rest).length < 65536 →
      (∀ f ∈ fs, f.length ≤ u16 K.ETH_FRAME_LEN ∧ ∀ b ∈ f, b < 256) →
      (∀ i, i < fs.length → A.ok (n + i) = true) →
      ∃ (s1 : SimPnic) (qlen1 : Nat), s1.queue = rest ∧
        pnic_poll_loop K (simPnic K netdev.priv.ioaddr) A netdev (fuel + fs.length) s n qlen
          = (pnic_poll_loop K (simPnic K netdev.priv.ioaddr) A netdev fuel s1
              (n + fs.length) qlen1).map
            (PollResult.after (deliver_events K netdev.priv.ioaddr A rest.length fs n)) := by
  induction fs with
  | nil =>
    intro s n qlen fuel hq _ _ _
    exact ⟨s, qlen, hq, (after_nil _).symm⟩
  | cons f fs ih =>
    intro s n qlen fuel hq hlen hfr hA
    have hf := hfr f (List.mem_cons_self f fs)
    obtain ⟨s1, hs1, hstep⟩ := sim_poll_step K A netdev f (fs ++ rest) s n qlen
      (fuel + fs.length) hK hq hlen hf.1 hf.2 (by simpa using hA 0 (by simp))
    have hlen1 : (fs ++ rest).length < 65536 := by
      simp only [List.cons_append, List.length_cons] at hlen; omega
    obtain ⟨s2, qlen2, hs2, hrec⟩ := ih s1 (n + 1) (f :: (fs ++ rest)).length fuel hs1 hlen1
      (fun g hg => hfr g (List.mem_cons_of_mem f hg))
      (fun i hi => by
        have := hA (i + 1) (by simp only [List.length_cons]; omega)
        rw [← this]; congr 1; omega)
    refine ⟨s2, qlen2, hs2, ?_⟩
    have e1 : fuel + (f :: fs).length = fuel + fs.length + 1 := by
      simp only [List.length_cons]; omega
    have e2 : n + (f :: fs).length = n + 1 + fs.length := by
      simp only [List.length_cons]; omega
    have e3 : (f :: (fs ++ rest)).length = fs.length + 1 + rest.length := by
      simp only [List.length_cons, List.length_append]; omega
    rw [e1, e2, hstep, hrec, after_after, e3]
    rfl

/-- The last loop iteration when the queue is empty. -/
theorem sim_poll_empty (K : Consts) (A : Allocator) (netdev : net_device)
    (hK : K.usable) (s : SimPnic) (n qlen fuel : Nat) (hq : s.queue = []) :
    ∃ r : PollResult SimPnic,
      pnic_poll_loop K (simPnic K netdev.priv.ioaddr) A netdev (fuel + 1) s n qlen = some r
      ∧ r.dev.queue = [] ∧ r.events = qlen_events K netdev.priv.ioaddr 0 := by
  obtain ⟨a1, a2, a3, a4⟩ := sim_qlen K netdev.priv.ioaddr s qlen hK
  refine ⟨⟨(pnic_command K (simPnic K netdev.priv.ioaddr) netdev.priv K.PNIC_CMD_RECV_QLEN
      none 0 (some (le16_bytes qlen)) 2 none s).dev, n,
    (pnic_command K (simPnic K netdev.priv.ioaddr) netdev.priv K.PNIC_CMD_RECV_QLEN
      none 0 (some (le16_bytes qlen)) 2 none s).events⟩, ?_, ?_, ?_⟩
  · rw [pnic_poll_loop]
    simp only [a1, a2, hq, ne_eq, not_true_eq_false, if_false, Option.getD_some,
      List.length_nil, le16_val_bytes 0 (by decide), if_true]
  · rw [← hq]; exact a3
  · have h0 : qlen_events K netdev.priv.ioaddr 0
        = qlen_events K netdev.priv.ioaddr s.queue.length := by rw [hq]; rfl
    rw [h0]; exact a4

/-- The last loop iteration when frames are queued and the allocation
fails. -/
theorem sim_poll_alloc_fail (K : Consts) (A : Allocator) (netdev : net_device)
    (hK : K.usable) (s : SimPnic) (n qlen fuel : Nat)
    (hq : s.queue ≠ []) (hlen : s.queue.length < 65536) (hA : A.ok n = false) :
    ∃ r : PollResult SimPnic,
      pnic_poll_loop K (simPnic K netdev.priv.ioaddr) A netdev (fuel + 1) s n qlen = some r
      ∧ r.dev.queue = s.queue
      ∧ r.events = qlen_events K netdev.priv.ioaddr s.queue.length
          ++ [Event.alloc_pkb K.ETH_FRAME_LEN false] := by
  obtain ⟨a1, a2, a3, a4⟩ := sim_qlen K netdev.priv.ioaddr s qlen hK
  have hne : ¬ s.queue.length = 0 := by
    intro h; exact hq (List.length_eq_zero.mp h)
  refine ⟨⟨(pnic_command K (simPnic K netdev.priv.ioaddr) netdev.priv K.PNIC_CMD_RECV_QLEN
      none 0 (some (le16_bytes qlen)) 2 none s).dev, n + 1,
    (pnic_command K (simPnic K netdev.priv.ioaddr) netdev.priv K.PNIC_CMD_RECV_QLEN
      none 0 (some (le16_bytes qlen)) 2 none s).events
      ++ [Event.alloc_pkb K.ETH_FRAME_LEN false]⟩, ?_, ?_, ?_⟩
  · rw [pnic_poll_loop]
    simp only [a1, a2, ne_eq, not_true_eq_false, if_false, Option.getD_some,
      le16_val_bytes _ hlen, hne, alloc_pkb, hA, Bool.false_eq_true]
  · exact a3
  · show _ ++ _ = _
    rw [← a4]

theorem deliveries_append (a b : List Event) :
    deliveries (a ++ b) = deliveries a ++ deliveries b := by
  simp [deliveries]

theorem deliveries_qlen_events (K : Consts) (base n : Nat) :
    deliveries (qlen_events K base n) = [] := rfl

theorem deliveries_recv_events (K : Consts) (base : Nat) (f : List Nat) :
    deliveries (recv_events K base f) = [] := by
  apply deliveries_eq_nil
  intro e he
  simp only [recv_events, List.mem_append, List.mem_cons, List.mem_singleton,
    List.not_mem_nil, or_false, List.mem_map] at he
  rcases he with (h | h | h) | ⟨v, _, h⟩ <;> subst h <;> exact Or.inl rfl

theorem pkb_data_received (K : Consts) (A : Allocator) (n : Nat) (f : List Nat) :
    pkb_data (received_pkb K A n f) = f := by
  simp [pkb_data, pkb_len, received_pkb]

theorem deliveries_deliver_events (K : Consts) (base : Nat) (A : Allocator) (more : Nat)
    (fs : List (List Nat)) (n : Nat) :
    deliveries (deliver_events K base A more fs n)
      = (List.range fs.length).map (fun i => received_pkb K A (n + i) (fs.getD i [])) := by
  induction fs generalizing n with
  | nil => rfl
  | cons f fs ih =>
    simp only [deliver_events, deliveries_append, deliveries_qlen_events,
      deliveries_recv_events, ih, List.length_cons, range_map_shift]
    simp only [List.nil_append, List.append_nil, List.getD_cons_zero, List.getD_cons_succ,
      Nat.add_zero]
    show received_pkb K A n f :: _ = _
    congr 1
    apply List.map_congr_left
    intro i _
    congr 1
    omega

theorem deliveries_data (K : Consts) (base : Nat) (A : Allocator) (more : Nat)
    (fs : List (List Nat)) (n : Nat) :
    (deliveries (deliver_events K base A more fs n)).map pkb_data = fs := by
  rw [deliveries_deliver_events, List.map_map]
  have : (pkb_data ∘ fun i => received_pkb K A (n + i) (fs.getD i []))
      = fun i => fs.getD i [] := by
    funext i
    exact pkb_data_received K A (n + i) _
  rw [this]
  apply List.ext_getElem
  · simp
  · intro i h1 h2
    simp only [List.getElem_map, List.getElem_range]
    exact List.getD_eq_getElem fs [] h2

theorem printf_deliver_events (K : Consts) (base : Nat) (A : Allocator) (more : Nat)
    (fs : List (List Nat)) (n : Nat) :
    (deliver_events K base A more fs n).filter Event.isPrintf = [] := by
  induction fs generalizing n with
  | nil => rfl
  | cons f fs ih =>
    have h1 : (qlen_events K base (fs.length + 1 + more)).filter Event.isPrintf = [] := rfl
    have h2 : (recv_events K base f).filter Event.isPrintf = [] := by
      apply List.filter_eq_nil_iff.mpr
      intro e he
      simp only [recv_events, List.mem_append, List.mem_cons, List.mem_singleton,
        List.not_mem_nil, or_false, List.mem_map] at he
      rcases he with (h | h | h) | ⟨v, _, h⟩ <;> subst h <;> simp [Event.isPrintf]
    simp only [deliver_events, List.filter_append, h1, h2, ih, List.nil_append,
      List.append_nil]
    rfl

theorem outw_count_deliver_events (K : Consts) (base : Nat) (A : Allocator) (more : Nat)
    (fs : List (List Nat)) (n : Nat) (hK : K.usable) :
    outw_count (u16 K.PNIC_CMD_RECV) (base + K.PNIC_REG_CMD)
      (deliver_events K base A more fs n) = fs.length := by
  obtain ⟨_, hcmd, _⟩ := hK
  induction fs generalizing n with
  | nil => rfl
  | cons f fs ih =>
    have h1 : (qlen_events K base (fs.length + 1 + more)).count
        (Event.outw (u16 K.PNIC_CMD_RECV) (base + K.PNIC_REG_CMD)) = 0 := by
      apply List.count_eq_zero.mpr
      intro he
      simp only [qlen_events, List.mem_cons, List.mem_singleton, List.not_mem_nil,
        or_false, Event.outw.injEq, reduceCtorEq, false_or, and_true] at he
      exact hcmd he.symm
    have h2 : (recv_events K base f).count
        (Event.outw (u16 K.PNIC_CMD_RECV) (base + K.PNIC_REG_CMD)) = 1 := by
      have h3 : (f.map (fun v => Event.inb (base + K.PNIC_REG_DATA) v)).count
          (Event.outw (u16 K.PNIC_CMD_RECV) (base + K.PNIC_REG_CMD)) = 0 := by
        apply List.count_eq_zero.mpr
        intro he
        simp only [List.mem_map, reduceCtorEq, and_false, exists_false] at he
      simp only [recv_events, List.count_append, h3, List.count_cons_self]
      simp
    have ih1 := ih (n + 1)
    unfold outw_count at ih1 ⊢
    simp only [deliver_events, List.count_append, h1, h2, ih1, List.length_cons]
    simp
    omega

/-- C5: against the simulated device with `N` frames queued and an
allocator that never fails, one call of `pnic_poll` returns (with any
iteration bound above `N`) after exactly `N` upstream deliveries, the
`i`-th delivered buffer holding the `i`-th queued frame. -/
theorem pnic_poll_drains_queue (K : Consts) (A : Allocator) (netdev : net_device)
    (s : SimPnic) (n qlen0 fuel : Nat)
    (hK : K.usable) (hlen : s.queue.length < 65536)
    (hfr : ∀ f ∈ s.queue, f.length ≤ u16 K.ETH_FRAME_LEN ∧ ∀ b ∈ f, b < 256)
    (hA : ∀ i, A.ok i = true) (hfuel : s.queue.length < fuel) :
    ∃ r : PollResult SimPnic,
      pnic_poll K (simPnic K netdev.priv.ioaddr) A netdev fuel qlen0 s n = some r
      ∧ (deliveries r.events).length = s.queue.length
      ∧ (deliveries r.events).map pkb_data = s.queue
      ∧ r.dev.queue = [] := by
  obtain ⟨fuel0, hf0⟩ : ∃ fuel0, fuel = fuel0 + 1 + s.queue.length := ⟨fuel - 1 - s.queue.length, by omega⟩
  obtain ⟨s1, qlen1, hs1, hpre⟩ := sim_poll_head K A netdev hK s.queue [] s n qlen0
    (fuel0 + 1) (List.append_nil _).symm (by rw [List.append_nil]; exact hlen) hfr
    (fun i _ => hA (n + i))
  obtain ⟨r0, hr0, hq0, he0⟩ := sim_poll_empty K A netdev hK s1 (n + s.queue.length) qlen1
    fuel0 hs1
  have hd : (deliveries (deliver_events K netdev.priv.ioaddr A 0 s.queue n
      ++ qlen_events K netdev.priv.ioaddr 0)).map pkb_data = s.queue := by
    rw [deliveries_append, deliveries_qlen_events, List.append_nil, deliveries_data]
  refine ⟨PollResult.after (deliver_events K netdev.priv.ioaddr A 0 s.queue n) r0,
    ?_, ?_, ?_, hq0⟩
  · unfold pnic_poll
    rw [hf0, hpre, hr0]
    rfl
  · have := congrArg List.length hd
    rw [List.length_map] at this
    simp only [PollResult.after, he0]
    exact this
  · simp only [PollResult.after, he0]
    exact hd

/-- Witness of C5: two frames queued. -/
theorem pnic_poll_drains_queue_witness :
    (sampleConsts.usable
      ∧ [[1, 2, 3], [4, 5]].length < 65536
      ∧ (∀ f ∈ [[1, 2, 3], [4, 5]],
          f.length ≤ u16 sampleConsts.ETH_FRAME_LEN ∧ ∀ b ∈ f, b < 256)
      ∧ (∀ i : Nat, (⟨fun _ => true, fun _ _ => 0⟩ : Allocator).ok i = true)
      ∧ [[1, 2, 3], [4, 5]].length < 3)
    ∧ ∃ r : PollResult SimPnic,
      pnic_poll sampleConsts (simPnic sampleConsts 0x300) ⟨fun _ => true, fun _ _ => 0⟩
          ⟨⟨0x300⟩, []⟩ 3 0 ⟨[[1, 2, 3], [4, 5]], 0, 0, []⟩ 0 = some r
      ∧ (deliveries r.events).length = 2
      ∧ (deliveries r.events).map pkb_data = [[1, 2, 3], [4, 5]]
      ∧ r.dev.queue = [] :=
  ⟨⟨by decide, by decide, by decide, fun _ => rfl, by decide⟩,
   pnic_poll_drains_queue sampleConsts ⟨fun _ => true, fun _ _ => 0⟩ ⟨⟨0x300⟩, []⟩
     ⟨[[1, 2, 3], [4, 5]], 0, 0, []⟩ 0 0 3
     (by decide) (by decide) (by decide) (fun _ => rfl) (by decide)⟩

/-- C6: against the simulated device with more than `k` frames queued, when
the allocation succeeds for the first `k` frames and fails for the next
one, one call of `pnic_poll` returns (with any iteration bound above `k`)
after exactly `k` upstream deliveries; it has issued `k` receive
transactions, none for the frame whose allocation failed, which stays
queued; nothing is printed. -/
theorem pnic_poll_alloc_failure (K : Consts) (A : Allocator) (netdev : net_device)
    (s : SimPnic) (n qlen0 fuel k : Nat)
    (hK : K.usable) (hlen : s.queue.length < 65536)
    (hfr : ∀ f ∈ s.queue, f.length ≤ u16 K.ETH_FRAME_LEN ∧ ∀ b ∈ f, b < 256)
    (hk : k < s.queue.length)
    (hA : ∀ i, i < k → A.ok (n + i) = true) (hfail : A.ok (n + k) = false)
    (hfuel : k < fuel) :
    ∃ r : PollResult SimPnic,
      pnic_poll K (simPnic K netdev.priv.ioaddr) A netdev fuel qlen0 s n = some r
      ∧ (deliveries r.events).length = k
      ∧ (deliveries r.events).map pkb_data = s.queue.take k
      ∧ outw_count (u16 K.PNIC_CMD_RECV) (netdev.priv.ioaddr + K.PNIC_REG_CMD) r.events = k
      ∧ r.events.filter Event.isPrintf = []
      ∧ r.dev.queue = s.queue.drop k := by
  obtain ⟨fuel0, hf0⟩ : ∃ fuel0, fuel = fuel0 + 1 + (s.queue.take k).length :=
    ⟨fuel - 1 - k, by rw [List.length_take]; omega⟩
  have htk : (s.queue.take k).length = k := by rw [List.length_take]; omega
  have hdk : (s.queue.drop k).length < 65536 := by rw [List.length_drop]; omega
  have hne : s.queue.drop k ≠ [] := by
    intro h
    have := congrArg List.length h
    rw [List.length_drop, List.length_nil] at this
    omega
  obtain ⟨s1, qlen1, hs1, hpre⟩ := sim_poll_head K A netdev hK (s.queue.take k)
    (s.queue.drop k) s n qlen0 (fuel0 + 1) (List.take_append_drop k s.queue).symm
    (by rw [List.take_append_drop]; exact hlen)
    (fun f hf => hfr f (List.mem_of_mem_take hf))
    (fun i hi => hA i (by rw [htk] at hi; exact hi))
  obtain ⟨r0, hr0, hq0, he0⟩ := sim_poll_alloc_fail K A netdev hK s1
    (n + (s.queue.take k).length) qlen1 fuel0 (by rw [hs1]; exact hne)
    (by rw [hs1]; exact hdk) (by rw [htk]; exact hfail)
  have hd : (deliveries (deliver_events K netdev.priv.ioaddr A (s.queue.drop k).length
      (s.queue.take k) n
      ++ (qlen_events K netdev.priv.ioaddr s1.queue.length
        ++ [Event.alloc_pkb K.ETH_FRAME_LEN false]))).map pkb_data = s.queue.take k := by
    have h0 : deliveries [Event.alloc_pkb K.ETH_FRAME_LEN false] = [] := rfl
    rw [deliveries_append, deliveries_append, deliveries_qlen_events, h0, List.append_nil,
      List.append_nil, deliveries_data]
  refine ⟨PollResult.after (deliver_events K netdev.priv.ioaddr A (s.queue.drop k).length
      (s.queue.take k) n) r0, ?_, ?_, ?_, ?_, ?_, ?_⟩
  · unfold pnic_poll
    rw [hf0, hpre, hr0]
    rfl
  · have := congrArg List.length hd
    rw [List.length_map, htk] at this
    simp only [PollResult.after, he0]
    exact this
  · simp only [PollResult.after, he0]
    exact hd
  · simp only [PollResult.after, he0]
    unfold outw_count
    rw [List.count_append, List.count_append]
    have h1 := outw_count_deliver_events K netdev.priv.ioaddr A (s.queue.drop k).length
      (s.queue.take k) n hK
    unfold outw_count at h1
    rw [h1, htk]
    have h2 : (qlen_events K netdev.priv.ioaddr s1.queue.length).count
        (Event.outw (u16 K.PNIC_CMD_RECV) (netdev.priv.ioaddr + K.PNIC_REG_CMD)) = 0 := by
      apply List.count_eq_zero.mpr
      intro he
      simp only [qlen_events, List.mem_cons, List.mem_singleton, List.not_mem_nil,
        or_false, Event.outw.injEq, reduceCtorEq, false_or, and_true] at he
      exact hK.2.1 he.symm
    rw [h2]
    simp
  · simp only [PollResult.after, he0, List.filter_append, printf_deliver_events]
    rfl
  · rw [← hs1]; exact hq0

/-- Witness of C6: two frames queued, the second allocation fails. -/
theorem pnic_poll_alloc_failure_witness :
    (sampleConsts.usable
      ∧ [[1, 2, 3], [4, 5]].length < 65536
      ∧ (∀ f ∈ [[1, 2, 3], [4, 5]],
          f.length ≤ u16 sampleConsts.ETH_FRAME_LEN ∧ ∀ b ∈ f, b < 256)
      ∧ 1 < [[1, 2, 3], [4, 5]].length
      ∧ (∀ i, i < 1 → (⟨fun j => decide (j < 1), fun _ _ => 0⟩ : Allocator).ok (0 + i) = true)
      ∧ (⟨fun j => decide (j < 1), fun _ _ => 0⟩ : Allocator).ok (0 + 1) = false
      ∧ 1 < 2)
    ∧ ∃ r : PollResult SimPnic,
      pnic_poll sampleConsts (simPnic sampleConsts 0x300)
          ⟨fun j => decide (j < 1), fun _ _ => 0⟩
          ⟨⟨0x300⟩, []⟩ 2 0 ⟨[[1, 2, 3], [4, 5]], 0, 0, []⟩ 0 = some r
      ∧ (deliveries r.events).length = 1
      ∧ (deliveries r.events).map pkb_data = [[1, 2, 3]]
      ∧ outw_count (u16 sampleConsts.PNIC_CMD_RECV) (0x300 + sampleConsts.PNIC_REG_CMD)
          r.events = 1
      ∧ r.events.filter Event.isPrintf = []
      ∧ r.dev.queue = [[4, 5]] :=
  ⟨⟨by decide, by decide, by decide, by decide, by decide, by decide, by decide⟩,
   pnic_poll_alloc_failure sampleConsts ⟨fun j => decide (j < 1), fun _ _ => 0⟩
     ⟨⟨0x300⟩, []⟩ ⟨[[1, 2, 3], [4, 5]], 0, 0, []⟩ 0 0 2 1
     (by decide) (by decide) (by decide) (by decide) (by decide) (by decide) (by decide)⟩

/-! ## The encoded frame -/

theorem le16_val_bytes_u16 (v : Nat) : le16_val (le16_bytes v) = u16 v := by
  simp only [le16_val, le16_bytes, List.getD_cons_zero, List.getD_cons_succ, u16]
  omega

/-- The valid data of the buffer `eth_tx` hands on. -/
theorem eth_tx_frame_data (pkb : pk_buff) (hdr : List Nat)
    (hwf : pkb_wf pkb) (hroom : ETH_HLEN ≤ pkb.data) (hh : hdr.length = 14) :
    pkb_data ⟨pkb.mem.take (pkb.data - ETH_HLEN) ++ hdr ++ pkb.mem.drop pkb.data,
        pkb.data - ETH_HLEN, pkb.tail⟩
      = hdr ++ pkb_data pkb := by
  obtain ⟨h1, h2⟩ := hwf
  unfold ETH_HLEN at hroom
  have hlen : (List.take (pkb.data - ETH_HLEN) pkb.mem).length = pkb.data - ETH_HLEN := by
    rw [List.length_take]; unfold ETH_HLEN; omega
  unfold pkb_data pkb_len
  simp only
  rw [List.append_assoc, List.drop_left' hlen, List.take_append_eq_append_take, hh,
    List.take_of_length_le (by rw [hh]; unfold ETH_HLEN; omega)]
  congr 2
  unfold ETH_HLEN; omega

/-- C11: `eth_tx` hands to the transmit path a buffer whose valid data is
14 bytes longer than the payload: bytes `0..5` are the destination address,
bytes `6..11` the device's link-layer address, bytes `12..13` the two bytes
of the protocol's type field, and the rest is the payload unchanged; the
result of `eth_tx` is the result of the transmit path. -/
theorem eth_tx_header (tx : net_device → pk_buff → Int) (pkb : pk_buff)
    (netdev : net_device) (np : net_protocol) (ll_dest : List Nat)
    (hwf : pkb_wf pkb) (hroom : ETH_HLEN ≤ pkb.data)
    (hD : ll_dest.length = ETH_ALEN) (hS : netdev.ll_addr.length = ETH_ALEN) :
    ∃ frame : pk_buff,
      eth_tx tx pkb netdev np ll_dest
        = some (tx netdev frame, frame, [Event.netdev_tx frame])
      ∧ pkb_len frame = pkb_len pkb + 14
      ∧ (pkb_data frame).take 6 = ll_dest
      ∧ ((pkb_data frame).drop 6).take 6 = netdev.ll_addr
      ∧ ((pkb_data frame).drop 12).take 2 = le16_bytes np.net_proto
      ∧ le16_val (((pkb_data frame).drop 12).take 2) = u16 np.net_proto
      ∧ (pkb_data frame).drop 14 = pkb_data pkb := by
  refine ⟨_, eth_tx_frame tx pkb netdev np ll_dest hwf hroom hD hS, ?_⟩
  have hh : (ll_dest ++ netdev.ll_addr ++ le16_bytes np.net_proto).length = 14 := by
    simp only [List.length_append, hD, hS, le16_bytes, List.length_cons, List.length_nil]
    rfl
  have hdata := eth_tx_frame_data pkb _ hwf hroom hh
  obtain ⟨p1, p2, p3, p4⟩ := header_parts ll_dest netdev.ll_addr (le16_bytes np.net_proto)
    (pkb_data pkb) hD hS rfl
  rw [hdata]
  refine ⟨?_, p1, p2, p3, ?_, p4⟩
  · obtain ⟨h1, h2⟩ := hwf
    unfold ETH_HLEN at hroom
    unfold pkb_len ETH_HLEN
    simp only
    omega
  · rw [p3, le16_val_bytes_u16]

/-- Witness of C11: a two-byte payload behind 14 bytes of head room. -/
theorem eth_tx_header_witness :
    (pkb_wf ⟨List.replicate 14 0 ++ [0xab, 0xcd], 14, 16⟩
      ∧ ETH_HLEN ≤ 14
      ∧ [0xff, 0xff, 0xff, 0xff, 0xff, 0xff].length = ETH_ALEN
      ∧ [0x52, 0x54, 0x00, 0x12, 0x34, 0x56].length = ETH_ALEN)
    ∧ ∃ frame : pk_buff,
      eth_tx (fun _ _ => 0) ⟨List.replicate 14 0 ++ [0xab, 0xcd], 14, 16⟩
          ⟨⟨0x300⟩, [0x52, 0x54, 0x00, 0x12, 0x34, 0x56]⟩ ⟨0x0008⟩
          [0xff, 0xff, 0xff, 0xff, 0xff, 0xff]
        = some (0, frame, [Event.netdev_tx frame])
      ∧ pkb_len frame = pkb_len ⟨List.replicate 14 0 ++ [0xab, 0xcd], 14, 16⟩ + 14
      ∧ (pkb_data frame).take 6 = [0xff, 0xff, 0xff, 0xff, 0xff, 0xff]
      ∧ ((pkb_data frame).drop 6).take 6 = [0x52, 0x54, 0x00, 0x12, 0x34, 0x56]
      ∧ ((pkb_data frame).drop 12).take 2 = le16_bytes 0x0008
      ∧ le16_val (((pkb_data frame).drop 12).take 2) = u16 0x0008
      ∧ (pkb_data frame).drop 14
          = pkb_data ⟨List.replicate 14 0 ++ [0xab, 0xcd], 14, 16⟩ :=
  ⟨⟨by decide, by decide, by decide, by decide⟩,
   eth_tx_header (fun _ _ => 0) ⟨List.replicate 14 0 ++ [0xab, 0xcd], 14, 16⟩
     ⟨⟨0x300⟩, [0x52, 0x54, 0x00, 0x12, 0x34, 0x56]⟩ ⟨0x0008⟩
     [0xff, 0xff, 0xff, 0xff, 0xff, 0xff]
     (by decide) (by decide) (by decide) (by decide)⟩

/-! ## The version check -/

/-- C12: `pnic_api_check` prints the mismatch warning exactly when the
reported version differs from `PNIC_API_VERSION`, prints the upgrade hint
exactly when it is lower (so never without the warning), and returns
nonzero exactly when the two are equal.  Against the expected version
`0x0100`, the version `0x0102` gives the warning alone and the version
`0x0001` gives the warning and the hint. -/
theorem pnic_api_check_messages (K : Consts) (v : Nat) :
    ((∃ a b c d, Event.printf (Diag.api_version_mismatch a b c d)
        ∈ (pnic_api_check K v).2) ↔ u16 v ≠ K.PNIC_API_VERSION)
    ∧ (Event.printf Diag.update_bochs ∈ (pnic_api_check K v).2
        ↔ u16 v < K.PNIC_API_VERSION)
    ∧ (Event.printf Diag.update_bochs ∈ (pnic_api_check K v).2 →
        ∃ a b c d, Event.printf (Diag.api_version_mismatch a b c d)
          ∈ (pnic_api_check K v).2)
    ∧ ((pnic_api_check K v).1 ≠ 0 ↔ u16 v = K.PNIC_API_VERSION)
    ∧ (pnic_api_check { sampleConsts with PNIC_API_VERSION := 0x0100 } 0x0102).2
        = [Event.printf (Diag.api_version_mismatch 1 2 1 0)]
    ∧ (pnic_api_check { sampleConsts with PNIC_API_VERSION := 0x0100 } 0x0001).2
        = [Event.printf (Diag.api_version_mismatch 0 1 1 0),
           Event.printf Diag.update_bochs] := by
  have hw : (∃ a b c d, Event.printf (Diag.api_version_mismatch a b c d)
      ∈ (pnic_api_check K v).2) ↔ u16 v ≠ K.PNIC_API_VERSION := by
    unfold pnic_api_check
    simp only
    by_cases h1 : u16 v = K.PNIC_API_VERSION
    · have h2 : ¬ u16 v < K.PNIC_API_VERSION := by omega
      simp [h1]
    · by_cases h2 : u16 v < K.PNIC_API_VERSION <;> simp [h1, h2]
  have hh : Event.printf Diag.update_bochs ∈ (pnic_api_check K v).2
      ↔ u16 v < K.PNIC_API_VERSION := by
    unfold pnic_api_check
    simp only
    by_cases h1 : u16 v = K.PNIC_API_VERSION
    · have h2 : ¬ u16 v < K.PNIC_API_VERSION := by omega
      simp [h1]
    · by_cases h2 : u16 v < K.PNIC_API_VERSION <;> simp [h1, h2]
  refine ⟨hw, hh, ?_, ?_, by decide, by decide⟩
  · intro h
    have : u16 v < K.PNIC_API_VERSION := hh.mp h
    exact hw.mpr (by omega)
  · unfold pnic_api_check
    simp only
    by_cases h1 : u16 v = K.PNIC_API_VERSION <;> simp [h1]

/-! ## The quiet and the noisy variant -/

/-- The printed messages of `pnic_command_quiet` are the two length
diagnostics. -/
theorem pnic_command_quiet_printf {σ : Type} (K : Consts) (D : Device σ) (p : pnic)
    (command : Nat) (input : Option (Nat → Nat)) (input_length : Nat)
    (output : Option (List Nat)) (output_max_length : Nat)
    (output_length : Option Nat) (s : σ) :
    (pnic_command_quiet K D p command input input_length output output_max_length
        output_length s).events.filter Event.isPrintf
      = (if output_length.isNone ∧
            device_length K D p command input input_length s ≠ u16 output_max_length then
            [Event.printf (Diag.wrong_data_length (u16 command) (u16 output_max_length)
              (device_length K D p command input input_length s))]
          else [])
        ++ (if output.isSome ∧
            device_length K D p command input input_length s > u16 output_max_length then
            [Event.printf (Diag.output_buffer_too_small (u16 command)
              (u16 output_max_length)
              (device_length K D p command input input_length s))]
          else []) := by
  have e0 : ∀ l : List Nat, (l.map (fun v => Event.inb (p.ioaddr + K.PNIC_REG_DATA) v)).filter
      Event.isPrintf = [] := by
    intro l
    apply List.filter_eq_nil_iff.mpr
    intro e he
    simp only [List.mem_map] at he
    obtain ⟨v, _, h⟩ := he
    subst h
    simp [Event.isPrintf]
  have e1 : (pnic_issue K D p (u16 command) input (u16 input_length) s).2.filter
      Event.isPrintf = [] := by
    rw [pnic_issue_events]
    apply List.filter_eq_nil_iff.mpr
    intro e he
    cases input with
    | none =>
      simp only [List.nil_append, List.mem_singleton] at he
      subst he
      simp [Event.isPrintf]
    | some inp =>
      simp only [List.mem_append, List.mem_cons, List.mem_map, List.mem_singleton,
        List.not_mem_nil, or_false] at he
      rcases he with (h | ⟨i, _, h⟩) | h <;> subst h <;> simp [Event.isPrintf]
  have e2 : ∀ (c : Prop) [Decidable c] (d : Diag),
      List.filter Event.isPrintf (if c then [Event.printf d] else [])
        = if c then [Event.printf d] else [] := by
    intro c _ d; split <;> rfl
  rw [pnic_command_quiet_events]
  simp only [List.filter_append, e0, e1, e2, List.append_nil, List.nil_append]
  rfl

/-- C18: `pnic_command` performs the same register operations, leaves the
same output bytes and recorded output length, and returns the same status
as `pnic_command_quiet`; it differs only by the failure diagnostic, which
it prints exactly when the status is not `PNIC_STATUS_OK`. -/
theorem pnic_command_refines_quiet {σ : Type} (K : Consts) (D : Device σ) (p : pnic)
    (command : Nat) (input : Option (Nat → Nat)) (input_length : Nat)
    (output : Option (List Nat)) (output_max_length : Nat)
    (output_length : Option Nat) (s : σ) :
    (pnic_command K D p command input input_length output output_max_length
        output_length s).status
      = (pnic_command_quiet K D p command input input_length output output_max_length
          output_length s).status
    ∧ (pnic_command K D p command input input_length output output_max_length
        output_length s).output
      = (pnic_command_quiet K D p command input input_length output output_max_length
          output_length s).output
    ∧ (pnic_command K D p command input input_length output output_max_length
        output_length s).output_length
      = (pnic_command_quiet K D p command input input_length output output_max_length
          output_length s).output_length
    ∧ (pnic_command K D p command input input_length output output_max_length
        output_length s).dev
      = (pnic_command_quiet K D p command input input_length output output_max_length
          output_length s).dev
    ∧ (pnic_command K D p command input input_length output output_max_length
        output_length s).events.filter Event.isReg
      = (pnic_command_quiet K D p command input input_length output output_max_length
          output_length s).events.filter Event.isReg
    ∧ (pnic_command K D p command input input_length output output_max_length
        output_length s).events
      = (pnic_command_quiet K D p command input input_length output output_max_length
          output_length s).events
        ++ (if (pnic_command_quiet K D p command input input_length output
              output_max_length output_length s).status = K.PNIC_STATUS_OK then []
            else [Event.printf (Diag.command_failed (u16 command) (u16 input_length)
              (pnic_command_quiet K D p command input input_length output
                output_max_length output_length s).status)])
    ∧ ((∃ a b c, Event.printf (Diag.command_failed a b c)
          ∈ (pnic_command K D p command input input_length output output_max_length
              output_length s).events)
        ↔ (pnic_command K D p command input input_length output output_max_length
            output_length s).status ≠ K.PNIC_STATUS_OK) := by
  have hq : ∀ a b c, Event.printf (Diag.command_failed a b c)
      ∉ (pnic_command_quiet K D p command input input_length output output_max_length
          output_length s).events := by
    intro a b c hmem
    have h1 : Event.printf (Diag.command_failed a b c)
        ∈ (pnic_command_quiet K D p command input input_length output output_max_length
            output_length s).events.filter Event.isPrintf :=
      List.mem_filter.mpr ⟨hmem, rfl⟩
    rw [pnic_command_quiet_printf] at h1
    simp only [List.mem_append] at h1
    rcases h1 with h1 | h1
    · split at h1 <;> simp at h1
    · split at h1 <;> simp at h1
  by_cases hs : (pnic_command_quiet K D p command input input_length output
      output_max_length output_length s).status = K.PNIC_STATUS_OK
  · have hc : pnic_command K D p command input input_length output output_max_length
        output_length s
        = pnic_command_quiet K D p command input input_length output output_max_length
          output_length s := by
      unfold pnic_command
      simp only [hs, if_true]
    rw [hc]
    refine ⟨rfl, rfl, rfl, rfl, rfl, ?_, ?_⟩
    · rw [if_pos hs, List.append_nil]
    · constructor
      · rintro ⟨a, b, c, h⟩
        exact absurd h (hq a b c)
      · intro h
        exact absurd hs h
  · have hc : pnic_command K D p command input input_length output output_max_length
        output_length s
        = { pnic_command_quiet K D p command input input_length output output_max_length
              output_length s with
            events := (pnic_command_quiet K D p command input input_length output
                output_max_length output_length s).events
              ++ [Event.printf (Diag.command_failed (u16 command) (u16 input_length)
                  (pnic_command_quiet K D p command input input_length output
                    output_max_length output_length s).status)] } := by
      unfold pnic_command
      simp only [hs, if_false]
    rw [hc]
    refine ⟨rfl, rfl, rfl, rfl, ?_, ?_, ?_⟩
    · simp [List.filter_append, Event.isReg]
    · rw [if_neg hs]
    · constructor
      · intro _
        exact hs
      · intro _
        exact ⟨_, _, _, List.mem_append_right _ (List.mem_singleton.mpr rfl)⟩

/-! ## The "wrong data length" diagnostic -/

/-- C19: without an output-length sink, `pnic_command_quiet` prints the
"wrong data length" diagnostic exactly when the declared output length
differs from `output_max_length`; the status, the output bytes, the
register operations and the device state are the same as with a sink; with
a sink the diagnostic is never printed and the sink receives the declared
output length. -/
theorem pnic_command_quiet_wrong_length {σ : Type} (K : Consts) (D : Device σ) (p : pnic)
    (command : Nat) (input : Option (Nat → Nat)) (input_length : Nat)
    (output : Option (List Nat)) (output_max_length : Nat) (sink : Nat) (s : σ) :
    wrong_length_diags (pnic_command_quiet K D p command input input_length output
        output_max_length none s).events
      = (if device_length K D p command input input_length s ≠ u16 output_max_length then
          [Event.printf (Diag.wrong_data_length (u16 command) (u16 output_max_length)
            (device_length K D p command input input_length s))]
         else [])
    ∧ (pnic_command_quiet K D p command input input_length output
        output_max_length none s).status
      = (pnic_command_quiet K D p command input input_length output
          output_max_length (some sink) s).status
    ∧ (pnic_command_quiet K D p command input input_length output
        output_max_length none s).output
      = (pnic_command_quiet K D p command input input_length output
          output_max_length (some sink) s).output
    ∧ (pnic_command_quiet K D p command input input_length output
        output_max_length none s).dev
      = (pnic_command_quiet K D p command input input_length output
          output_max_length (some sink) s).dev
    ∧ (pnic_command_quiet K D p command input input_length output
        output_max_length none s).events.filter Event.isReg
      = (pnic_command_quiet K D p command input input_length output
          output_max_length (some sink) s).events.filter Event.isReg
    ∧ wrong_length_diags (pnic_command_quiet K D p command input input_length output
        output_max_length (some sink) s).events = []
    ∧ (pnic_command_quiet K D p command input input_length output
        output_max_length (some sink) s).output_length
      = some (device_length K D p command input input_length s) := by
  have hw : ∀ l : List Event, wrong_length_diags l
      = wrong_length_diags (l.filter Event.isPrintf) := by
    intro l
    unfold wrong_length_diags
    rw [List.filter_filter]
    congr 1
    funext e
    cases e <;> simp [Event.isPrintf]
  have hr : ∀ (c : Prop) [Decidable c] (d : Diag),
      List.filter Event.isReg (if c then [Event.printf d] else []) = [] := by
    intro c _ d; split <;> rfl
  refine ⟨?_, ?_, ?_, ?_, ?_, ?_, ?_⟩
  · rw [hw, pnic_command_quiet_printf]
    by_cases h1 : device_length K D p command input input_length s = u16 output_max_length
    · have h2 : ¬ device_length K D p command input input_length s
          > u16 output_max_length := by omega
      simp [h1, wrong_length_diags]
    · by_cases h2 : output.isSome ∧ device_length K D p command input input_length s
          > u16 output_max_length
      · simp [h1, h2, wrong_length_diags]
      · simp only [Option.isNone_none, true_and, ne_eq, h1, not_false_eq_true, if_true,
          h2, if_false, List.append_nil]
        rfl
  · rw [pnic_command_quiet_status, pnic_command_quiet_status]
  · cases output <;> rfl
  · cases output <;> rfl
  · rw [pnic_command_quiet_events, pnic_command_quiet_events]
    simp only [List.filter_append, hr, List.append_nil]
  · rw [hw, pnic_command_quiet_printf]
    by_cases h2 : output.isSome ∧ device_length K D p command input input_length s
        > u16 output_max_length
    · simp [h2, wrong_length_diags]
    · simp [h2, wrong_length_diags]
  · rw [pnic_command_quiet_sink]
    rfl

/-! ## The receive pipeline against any device -/

theorem releases_append (a b : List Event) :
    releases (a ++ b) = releases a ++ releases b := by
  simp [releases]

/-- C17: when the first queue-length transaction of `pnic_poll` returns a
non-OK status or reports a depth of zero, the invocation ends after that
single transaction: its events are those of the transaction (register
accesses and diagnostics), no buffer is allocated, none is released, and
nothing is delivered upstream; the call returns. -/
theorem pnic_poll_stops_at_first_qlen {σ : Type} (K : Consts) (D : Device σ)
    (A : Allocator) (netdev : net_device) (fuel qlen0 : Nat) (s : σ) (n : Nat)
    (h : (pnic_command K D netdev.priv K.PNIC_CMD_RECV_QLEN none 0
            (some (le16_bytes qlen0)) 2 none s).status ≠ K.PNIC_STATUS_OK
         ∨ le16_val ((pnic_command K D netdev.priv K.PNIC_CMD_RECV_QLEN none 0
            (some (le16_bytes qlen0)) 2 none s).output.getD (le16_bytes qlen0)) = 0) :
    pnic_poll K D A netdev (fuel + 1) qlen0 s n
      = some { dev := (pnic_command K D netdev.priv K.PNIC_CMD_RECV_QLEN none 0
                  (some (le16_bytes qlen0)) 2 none s).dev,
               allocs := n,
               events := (pnic_command K D netdev.priv K.PNIC_CMD_RECV_QLEN none 0
                  (some (le16_bytes qlen0)) 2 none s).events }
    ∧ (∀ e ∈ (pnic_command K D netdev.priv K.PNIC_CMD_RECV_QLEN none 0
          (some (le16_bytes qlen0)) 2 none s).events,
        e.isReg = true ∨ e.isPrintf = true)
    ∧ deliveries (pnic_command K D netdev.priv K.PNIC_CMD_RECV_QLEN none 0
          (some (le16_bytes qlen0)) 2 none s).events = []
    ∧ releases (pnic_command K D netdev.priv K.PNIC_CMD_RECV_QLEN none 0
          (some (le16_bytes qlen0)) 2 none s).events = [] := by
  have hk := pnic_command_kind K D netdev.priv K.PNIC_CMD_RECV_QLEN none 0
    (some (le16_bytes qlen0)) 2 none s
  refine ⟨?_, hk, deliveries_eq_nil _ hk, releases_eq_nil _ hk⟩
  unfold pnic_poll
  rw [pnic_poll_loop]
  by_cases h1 : (pnic_command K D netdev.priv K.PNIC_CMD_RECV_QLEN none 0
      (some (le16_bytes qlen0)) 2 none s).status = K.PNIC_STATUS_OK
  · have h2 : le16_val ((pnic_command K D netdev.priv K.PNIC_CMD_RECV_QLEN none 0
        (some (le16_bytes qlen0)) 2 none s).output.getD (le16_bytes qlen0)) = 0 := by
      rcases h with h | h
      · exact absurd h1 h
      · exact h
    simp only [h1, ne_eq, not_true_eq_false, if_false, h2, if_true]
  · simp only [ne_eq, h1, not_false_eq_true, if_true]

/-- Witness of C17: a device whose status register reads 0. -/
theorem pnic_poll_stops_at_first_qlen_witness :
    ((pnic_command sampleConsts (constDevice sampleConsts 0x300 0 2 0)
          (⟨⟨0x300⟩, []⟩ : net_device).priv sampleConsts.PNIC_CMD_RECV_QLEN none 0
          (some (le16_bytes 0)) 2 none ()).status ≠ sampleConsts.PNIC_STATUS_OK
      ∨ le16_val ((pnic_command sampleConsts (constDevice sampleConsts 0x300 0 2 0)
          (⟨⟨0x300⟩, []⟩ : net_device).priv sampleConsts.PNIC_CMD_RECV_QLEN none 0
          (some (le16_bytes 0)) 2 none ()).output.getD (le16_bytes 0)) = 0)
    ∧ deliveries (pnic_command sampleConsts (constDevice sampleConsts 0x300 0 2 0)
          (⟨⟨0x300⟩, []⟩ : net_device).priv sampleConsts.PNIC_CMD_RECV_QLEN none 0
          (some (le16_bytes 0)) 2 none ()).events = [] :=
  ⟨Or.inl (by decide),
   (pnic_poll_stops_at_first_qlen sampleConsts (constDevice sampleConsts 0x300 0 2 0)
     ⟨fun _ => true, fun _ _ => 0⟩ ⟨⟨0x300⟩, []⟩ 0 0 () 0 (Or.inl (by decide))).2.2.1⟩

/-- C16: when, in an iteration of the loop of `pnic_poll`, the receive
transaction returns a non-OK status, the rest of the invocation consists of
the queue-length transaction, the allocation, the receive transaction and
the release of the buffer, which is the last event: the buffer is released
once and not delivered, no further transaction is issued, and whatever the
earlier iterations `pre` delivered stays delivered. -/
theorem pnic_poll_recv_failure {σ : Type} (K : Consts) (D : Device σ)
    (A : Allocator) (netdev : net_device) (fuel : Nat) (s : σ) (n qlen : Nat)
    (pkb : pk_buff)
    (hq : (pnic_command K D netdev.priv K.PNIC_CMD_RECV_QLEN none 0
            (some (le16_bytes qlen)) 2 none s).status = K.PNIC_STATUS_OK)
    (hz : le16_val ((pnic_command K D netdev.priv K.PNIC_CMD_RECV_QLEN none 0
            (some (le16_bytes qlen)) 2 none s).output.getD (le16_bytes qlen)) ≠ 0)
    (ha : alloc_pkb A n K.ETH_FRAME_LEN = some pkb)
    (hr : (pnic_command K D netdev.priv K.PNIC_CMD_RECV none 0
            (some (pkb.mem.drop pkb.data)) K.ETH_FRAME_LEN (some 0)
            (pnic_command K D netdev.priv K.PNIC_CMD_RECV_QLEN none 0
              (some (le16_bytes qlen)) 2 none s).dev).status ≠ K.PNIC_STATUS_OK) :
    ∃ (r : PollResult σ) (b : pk_buff),
      pnic_poll_loop K D A netdev (fuel + 1) s n qlen = some r
      ∧ r.events
        = (pnic_command K D netdev.priv K.PNIC_CMD_RECV_QLEN none 0
            (some (le16_bytes qlen)) 2 none s).events
          ++ [Event.alloc_pkb K.ETH_FRAME_LEN true]
          ++ (pnic_command K D netdev.priv K.PNIC_CMD_RECV none 0
            (some (pkb.mem.drop pkb.data)) K.ETH_FRAME_LEN (some 0)
            (pnic_command K D netdev.priv K.PNIC_CMD_RECV_QLEN none 0
              (some (le16_bytes qlen)) 2 none s).dev).events
          ++ [Event.free_pkb b]
      ∧ b.data = pkb.data ∧ b.tail = pkb.tail
      ∧ releases r.events = [b]
      ∧ deliveries r.events = []
      ∧ ∀ pre : List Event,
          (PollResult.after pre r).events.getLast? = some (Event.free_pkb b)
          ∧ releases (PollResult.after pre r).events = releases pre ++ [b]
          ∧ deliveries (PollResult.after pre r).events = deliveries pre := by
  have hk1 := pnic_command_kind K D netdev.priv K.PNIC_CMD_RECV_QLEN none 0
    (some (le16_bytes qlen)) 2 none s
  have hk2 := pnic_command_kind K D netdev.priv K.PNIC_CMD_RECV none 0
    (some (pkb.mem.drop pkb.data)) K.ETH_FRAME_LEN (some 0)
    (pnic_command K D netdev.priv K.PNIC_CMD_RECV_QLEN none 0
      (some (le16_bytes qlen)) 2 none s).dev
  have hrel : releases ((pnic_command K D netdev.priv K.PNIC_CMD_RECV_QLEN none 0
        (some (le16_bytes qlen)) 2 none s).events
      ++ [Event.alloc_pkb K.ETH_FRAME_LEN true]
      ++ (pnic_command K D netdev.priv K.PNIC_CMD_RECV none 0
        (some (pkb.mem.drop pkb.data)) K.ETH_FRAME_LEN (some 0)
        (pnic_command K D netdev.priv K.PNIC_CMD_RECV_QLEN none 0
          (some (le16_bytes qlen)) 2 none s).dev).events
      ++ [Event.free_pkb
        { pkb with mem := pkb.mem.take pkb.data ++
            (pnic_command K D netdev.priv K.PNIC_CMD_RECV none 0
              (some (pkb.mem.drop pkb.data)) K.ETH_FRAME_LEN (some 0)
              (pnic_command K D netdev.priv K.PNIC_CMD_RECV_QLEN none 0
                (some (le16_bytes qlen)) 2 none s).dev).output.getD [] }])
      = [{ pkb with mem := pkb.mem.take pkb.data ++
            (pnic_command K D netdev.priv K.PNIC_CMD_RECV none 0
              (some (pkb.mem.drop pkb.data)) K.ETH_FRAME_LEN (some 0)
              (pnic_command K D netdev.priv K.PNIC_CMD_RECV_QLEN none 0
                (some (le16_bytes qlen)) 2 none s).dev).output.getD [] }] := by
    rw [releases_append, releases_append, releases_append, releases_eq_nil _ hk1,
      releases_eq_nil _ hk2]
    rfl
  have hdel : deliveries ((pnic_command K D netdev.priv K.PNIC_CMD_RECV_QLEN none 0
        (some (le16_bytes qlen)) 2 none s).events
      ++ [Event.alloc_pkb K.ETH_FRAME_LEN true]
      ++ (pnic_command K D netdev.priv K.PNIC_CMD_RECV none 0
        (some (pkb.mem.drop pkb.data)) K.ETH_FRAME_LEN (some 0)
        (pnic_command K D netdev.priv K.PNIC_CMD_RECV_QLEN none 0
          (some (le16_bytes qlen)) 2 none s).dev).events
      ++ [Event.free_pkb
        { pkb with mem := pkb.mem.take pkb.data ++
            (pnic_command K D netdev.priv K.PNIC_CMD_RECV none 0
              (some (pkb.mem.drop pkb.data)) K.ETH_FRAME_LEN (some 0)
              (pnic_command K D netdev.priv K.PNIC_CMD_RECV_QLEN none 0
                (some (le16_bytes qlen)) 2 none s).dev).output.getD [] }])
      = [] := by
    rw [deliveries_append, deliveries_append, deliveries_append, deliveries_eq_nil _ hk1,
      deliveries_eq_nil _ hk2]
    rfl
  refine ⟨⟨(pnic_command K D netdev.priv K.PNIC_CMD_RECV none 0
        (some (pkb.mem.drop pkb.data)) K.ETH_FRAME_LEN (some 0)
        (pnic_command K D netdev.priv K.PNIC_CMD_RECV_QLEN none 0
          (some (le16_bytes qlen)) 2 none s).dev).dev, n + 1,
      (pnic_command K D netdev.priv K.PNIC_CMD_RECV_QLEN none 0
          (some (le16_bytes qlen)) 2 none s).events
        ++ [Event.alloc_pkb K.ETH_FRAME_LEN true]
        ++ (pnic_command K D netdev.priv K.PNIC_CMD_RECV none 0
        (some (pkb.mem.drop pkb.data)) K.ETH_FRAME_LEN (some 0)
        (pnic_command K D netdev.priv K.PNIC_CMD_RECV_QLEN none 0
          (some (le16_bytes qlen)) 2 none s).dev).events
        ++ [Event.free_pkb (⟨pkb.mem.take pkb.data ++
        (pnic_command K D netdev.priv K.PNIC_CMD_RECV none 0
        (some (pkb.mem.drop pkb.data)) K.ETH_FRAME_LEN (some 0)
        (pnic_command K D netdev.priv K.PNIC_CMD_RECV_QLEN none 0
          (some (le16_bytes qlen)) 2 none s).dev).output.getD [],
      pkb.data, pkb.tail⟩ : pk_buff)]⟩,
    (⟨pkb.mem.take pkb.data ++
        (pnic_command K D netdev.priv K.PNIC_CMD_RECV none 0
        (some (pkb.mem.drop pkb.data)) K.ETH_FRAME_LEN (some 0)
        (pnic_command K D netdev.priv K.PNIC_CMD_RECV_QLEN none 0
          (some (le16_bytes qlen)) 2 none s).dev).output.getD [],
      pkb.data, pkb.tail⟩ : pk_buff), ?_, rfl, rfl, rfl, hrel, hdel, ?_⟩
  · rw [pnic_poll_loop]
    simp only [hq, ne_eq, not_true_eq_false, if_false, hz, ha, hr, not_false_eq_true,
      if_true]
  · intro pre
    refine ⟨?_, ?_, ?_⟩
    · simp only [PollResult.after]
      rw [← List.append_assoc, List.getLast?_append]
      rfl
    · simp only [PollResult.after]
      rw [releases_append, hrel]
    · simp only [PollResult.after]
      rw [deliveries_append, hdel, List.append_nil]

/-- Witness of C16: a device that reports frames but fails to hand them
over. -/
theorem pnic_poll_recv_failure_witness :
    ((pnic_command sampleConsts (stuckDevice sampleConsts 0x300) (⟨⟨0x300⟩, []⟩ : net_device).priv
          sampleConsts.PNIC_CMD_RECV_QLEN none 0 (some (le16_bytes 0)) 2 none 0).status = sampleConsts.PNIC_STATUS_OK
      ∧ le16_val ((pnic_command sampleConsts (stuckDevice sampleConsts 0x300) (⟨⟨0x300⟩, []⟩ : net_device).priv
          sampleConsts.PNIC_CMD_RECV_QLEN none 0 (some (le16_bytes 0)) 2 none 0).output.getD (le16_bytes 0)) ≠ 0
      ∧ alloc_pkb (⟨fun _ => true, fun _ _ => 0⟩ : Allocator) 0 sampleConsts.ETH_FRAME_LEN
          = some (⟨(List.range sampleConsts.ETH_FRAME_LEN).map (fun _ => 0), 0, 0⟩ : pk_buff)
      ∧ (pnic_command sampleConsts (stuckDevice sampleConsts 0x300) (⟨⟨0x300⟩, []⟩ : net_device).priv
          sampleConsts.PNIC_CMD_RECV none 0
          (some ((⟨(List.range sampleConsts.ETH_FRAME_LEN).map (fun _ => 0), 0, 0⟩ : pk_buff).mem.drop
            (⟨(List.range sampleConsts.ETH_FRAME_LEN).map (fun _ => 0), 0, 0⟩ : pk_buff).data))
          sampleConsts.ETH_FRAME_LEN (some 0)
          (pnic_command sampleConsts (stuckDevice sampleConsts 0x300) (⟨⟨0x300⟩, []⟩ : net_device).priv
          sampleConsts.PNIC_CMD_RECV_QLEN none 0 (some (le16_bytes 0)) 2 none 0).dev).status ≠ sampleConsts.PNIC_STATUS_OK)
    ∧ ∃ (r : PollResult Nat) (b : pk_buff),
        pnic_poll_loop sampleConsts (stuckDevice sampleConsts 0x300) (⟨fun _ => true, fun _ _ => 0⟩ : Allocator)
          (⟨⟨0x300⟩, []⟩ : net_device) (0 + 1) 0 0 0 = some r
        ∧ releases r.events = [b]
        ∧ deliveries r.events = [] := by
  refine ⟨⟨by decide, by decide, rfl, by decide⟩, ?_⟩
  obtain ⟨r, b, h1, _, _, _, h5, h6, _⟩ := pnic_poll_recv_failure sampleConsts
    (stuckDevice sampleConsts 0x300) (⟨fun _ => true, fun _ _ => 0⟩ : Allocator) (⟨⟨0x300⟩, []⟩ : net_device) 0 0 0 0
    (⟨(List.range sampleConsts.ETH_FRAME_LEN).map (fun _ => 0), 0, 0⟩ : pk_buff)
    (by decide) (by decide) rfl (by decide)
  exact ⟨r, b, h1, h5, h6⟩

/-! ## Device setup -/

theorem pnic_api_check_kind (K : Consts) (v : Nat) :
    ∀ e ∈ (pnic_api_check K v).2, e.isReg = true ∨ e.isPrintf = true := by
  intro e he
  unfold pnic_api_check at he
  simp only [List.mem_append] at he
  rcases he with h | h
  · split at h
    · simp only [List.mem_singleton] at h; subst h; exact Or.inr rfl
    · simp at h
  · split at h
    · simp only [List.mem_singleton] at h; subst h; exact Or.inr rfl
    · simp at h

/-- The run of `pnic_probe` after a successful allocation and version
exchange. -/
theorem pnic_probe_ok_run {σ : Type} (K : Consts) (E : Errno) (D : Device σ)
    (env : ProbeEnv) (pci : pci_device) (s : σ)
    (ha : env.alloc_ok = true)
    (hs : (pnic_command_quiet K D ⟨u16 pci.ioaddr⟩ K.PNIC_CMD_API_VER none 0
          (some (le16_bytes env.api_version0)) 2 none s).status = K.PNIC_STATUS_OK) :
    ∃ (pn : probe_netdev) (pre : List Event),
      pn.poll = some Hook.pnic_poll ∧ pn.transmit = some Hook.pnic_transmit
      ∧ pn.netdev.priv = ⟨u16 pci.ioaddr⟩
      ∧ (pnic_probe K E D env pci s).offered = some pn
      ∧ (pnic_probe K E D env pci s).rc = env.register_netdev pn
      ∧ (∀ e ∈ pre, e.isReg = true ∨ e.isPrintf = true)
      ∧ (pnic_probe K E D env pci s).events
          = [Event.alloc_etherdev true, Event.pci_set_drvdata] ++ pre
            ++ [Event.register_netdev (env.register_netdev pn)]
            ++ (if env.register_netdev pn ≠ 0 then [Event.free_netdev (some pn.netdev)]
                else []) := by
  have hk1 := pnic_command_quiet_kind K D ⟨u16 pci.ioaddr⟩ K.PNIC_CMD_API_VER none 0
    (some (le16_bytes env.api_version0)) 2 none s
  have hk2 := pnic_api_check_kind K (le16_val ((pnic_command_quiet K D ⟨u16 pci.ioaddr⟩ K.PNIC_CMD_API_VER none 0
          (some (le16_bytes env.api_version0)) 2 none s).output.getD (le16_bytes env.api_version0)))
  have hk3 := pnic_command_kind K D ⟨u16 pci.ioaddr⟩ K.PNIC_CMD_READ_MAC none 0
    (some env.ll_addr0) ETH_ALEN none (pnic_command_quiet K D ⟨u16 pci.ioaddr⟩ K.PNIC_CMD_API_VER none 0
          (some (le16_bytes env.api_version0)) 2 none s).dev
  refine ⟨⟨⟨⟨u16 pci.ioaddr⟩,
      (pnic_command K D ⟨u16 pci.ioaddr⟩ K.PNIC_CMD_READ_MAC none 0
        (some env.ll_addr0) ETH_ALEN none (pnic_command_quiet K D ⟨u16 pci.ioaddr⟩ K.PNIC_CMD_API_VER none 0
          (some (le16_bytes env.api_version0)) 2 none s).dev).output.getD env.ll_addr0⟩,
      some Hook.pnic_poll, some Hook.pnic_transmit⟩,
    (pnic_command_quiet K D ⟨u16 pci.ioaddr⟩ K.PNIC_CMD_API_VER none 0
          (some (le16_bytes env.api_version0)) 2 none s).events
      ++ (pnic_api_check K (le16_val ((pnic_command_quiet K D ⟨u16 pci.ioaddr⟩ K.PNIC_CMD_API_VER none 0
          (some (le16_bytes env.api_version0)) 2 none s).output.getD (le16_bytes env.api_version0)))).2
      ++ (pnic_command K D ⟨u16 pci.ioaddr⟩ K.PNIC_CMD_READ_MAC none 0
        (some env.ll_addr0) ETH_ALEN none (pnic_command_quiet K D ⟨u16 pci.ioaddr⟩ K.PNIC_CMD_API_VER none 0
          (some (le16_bytes env.api_version0)) 2 none s).dev).events,
    rfl, rfl, rfl, ?_, ?_, ?_, ?_⟩
  · unfold pnic_probe
    simp only [ha, Bool.true_eq_false, if_false, hs, ne_eq, not_true_eq_false]
    split <;> rfl
  · unfold pnic_probe
    simp only [ha, Bool.true_eq_false, if_false, hs, ne_eq, not_true_eq_false]
    split
    · rfl
    · rename_i h
      simp only [not_not] at h
      exact h.symm
  · intro e he
    simp only [List.mem_append] at he
    rcases he with (h | h) | h
    · exact hk1 e h
    · exact hk2 e h
    · exact hk3 e h
  · unfold pnic_probe
    simp only [ha, Bool.true_eq_false, if_false, hs, ne_eq, not_true_eq_false]
    split
    · rename_i h
      simp only [h, not_false_eq_true, if_true, List.append_assoc]
    · rename_i h
      simp only [h, if_false, List.append_nil, List.append_assoc]

theorem not_mem_of_kind (l : List Event)
    (h : ∀ e ∈ l, e.isReg = true ∨ e.isPrintf = true) (e : Event)
    (he : e.isReg = false ∧ e.isPrintf = false) : e ∉ l := by
  intro hm
  rcases h e hm with h1 | h1
  · rw [he.1] at h1; exact Bool.noConfusion h1
  · rw [he.2] at h1; exact Bool.noConfusion h1

/-- C13: when the allocation succeeds and the get-API-version transaction
returns OK, the outcome of `pnic_probe` is that of the registration,
whatever version is reported and whatever the read-MAC transaction returns:
the device handed to `register_netdev` carries the poll and transmit hooks,
the result is the registry's, and with a successful registration it is 0
and the device is not freed. -/
theorem pnic_probe_outcome {σ : Type} (K : Consts) (E : Errno) (D : Device σ)
    (env : ProbeEnv) (pci : pci_device) (s : σ)
    (ha : env.alloc_ok = true)
    (hs : (pnic_command_quiet K D ⟨u16 pci.ioaddr⟩ K.PNIC_CMD_API_VER none 0
          (some (le16_bytes env.api_version0)) 2 none s).status = K.PNIC_STATUS_OK) :
    ∃ pn : probe_netdev,
      (pnic_probe K E D env pci s).offered = some pn
      ∧ pn.poll = some Hook.pnic_poll ∧ pn.transmit = some Hook.pnic_transmit
      ∧ (pnic_probe K E D env pci s).rc = env.register_netdev pn
      ∧ Event.register_netdev (env.register_netdev pn)
          ∈ (pnic_probe K E D env pci s).events
      ∧ (env.register_netdev pn = 0 →
          (pnic_probe K E D env pci s).rc = 0
          ∧ ∀ nd, Event.free_netdev nd ∉ (pnic_probe K E D env pci s).events) := by
  obtain ⟨pn, pre, h1, h2, _, h4, h5, h6, h7⟩ := pnic_probe_ok_run K E D env pci s ha hs
  refine ⟨pn, h4, h1, h2, h5, ?_, ?_⟩
  · rw [h7]
    simp
  · intro h0
    refine ⟨by rw [h5, h0], ?_⟩
    intro nd hm
    rw [h7] at hm
    simp only [h0, ne_eq, not_true_eq_false, if_false, List.append_nil, List.mem_append,
      List.mem_cons, List.mem_singleton, List.not_mem_nil, or_false, reduceCtorEq,
      false_or] at hm
    exact not_mem_of_kind pre h6 (Event.free_netdev nd) ⟨rfl, rfl⟩ hm

/-- Witness of C13: a device that answers OK, a registry that accepts. -/
theorem pnic_probe_outcome_witness :
    ((⟨true, [0, 0, 0, 0, 0, 0], 0, fun _ => 0⟩ : ProbeEnv).alloc_ok = true
      ∧ (pnic_command_quiet sampleConsts (constDevice sampleConsts 0x300 0x4f4b 2 1)
          ⟨u16 (⟨0x300⟩ : pci_device).ioaddr⟩ sampleConsts.PNIC_CMD_API_VER none 0
          (some (le16_bytes (⟨true, [0, 0, 0, 0, 0, 0], 0, fun _ => 0⟩ : ProbeEnv).api_version0))
          2 none ()).status = sampleConsts.PNIC_STATUS_OK)
    ∧ (pnic_probe sampleConsts ⟨12, 5⟩ (constDevice sampleConsts 0x300 0x4f4b 2 1)
        ⟨true, [0, 0, 0, 0, 0, 0], 0, fun _ => 0⟩ ⟨0x300⟩ ()).rc = 0 := by
  refine ⟨⟨rfl, by decide⟩, ?_⟩
  obtain ⟨pn, _, _, _, _, _, h⟩ := pnic_probe_outcome sampleConsts ⟨12, 5⟩
    (constDevice sampleConsts 0x300 0x4f4b 2 1)
    ⟨true, [0, 0, 0, 0, 0, 0], 0, fun _ => 0⟩ ⟨0x300⟩ () rfl (by decide)
  exact (h rfl).1

/-- C14: every failing run of `pnic_probe` returns a nonzero error, ends by
freeing the net device, and leaves no successful registration behind.  When
the allocation fails the result is `-ENOMEM`; when the get-API-version
transaction returns a non-OK status the result is `-EIO` and that
transaction is the only one, with no registration attempted; when the
registration fails the result is the registry's error code. -/
theorem pnic_probe_failure {σ : Type} (K : Consts) (E : Errno) (D : Device σ)
    (env : ProbeEnv) (pci : pci_device) (s : σ)
    (hE1 : 0 < E.ENOMEM) (hE2 : 0 < Errno.EIO E) :
    (env.alloc_ok = false →
      (pnic_probe K E D env pci s).rc = -(E.ENOMEM : Int)
      ∧ (pnic_probe K E D env pci s).rc ≠ 0
      ∧ (pnic_probe K E D env pci s).offered = none
      ∧ (pnic_probe K E D env pci s).events
          = [Event.alloc_etherdev false, Event.free_netdev none])
    ∧ (env.alloc_ok = true → (pnic_command_quiet K D ⟨u16 pci.ioaddr⟩ K.PNIC_CMD_API_VER none 0
          (some (le16_bytes env.api_version0)) 2 none s).status ≠ K.PNIC_STATUS_OK →
      (pnic_probe K E D env pci s).rc = -( Errno.EIO E : Int)
      ∧ (pnic_probe K E D env pci s).rc ≠ 0
      ∧ (pnic_probe K E D env pci s).offered = none
      ∧ (pnic_probe K E D env pci s).events
          = [Event.alloc_etherdev true, Event.pci_set_drvdata] ++ (pnic_command_quiet K D ⟨u16 pci.ioaddr⟩ K.PNIC_CMD_API_VER none 0
          (some (le16_bytes env.api_version0)) 2 none s).events
            ++ [Event.printf (Diag.failed_installation_check (pnic_command_quiet K D ⟨u16 pci.ioaddr⟩ K.PNIC_CMD_API_VER none 0
          (some (le16_bytes env.api_version0)) 2 none s).status),
                Event.free_netdev (some ⟨⟨u16 pci.ioaddr⟩, env.ll_addr0⟩)]
      ∧ ∀ rc, Event.register_netdev rc ∉ (pnic_probe K E D env pci s).events)
    ∧ (env.alloc_ok = true → (pnic_command_quiet K D ⟨u16 pci.ioaddr⟩ K.PNIC_CMD_API_VER none 0
          (some (le16_bytes env.api_version0)) 2 none s).status = K.PNIC_STATUS_OK →
        ∀ pn, (pnic_probe K E D env pci s).offered = some pn →
          env.register_netdev pn ≠ 0 →
          (pnic_probe K E D env pci s).rc = env.register_netdev pn
          ∧ ∃ pre, (pnic_probe K E D env pci s).events
              = pre ++ [Event.register_netdev (env.register_netdev pn),
                        Event.free_netdev (some pn.netdev)])
    ∧ ((pnic_probe K E D env pci s).rc ≠ 0 →
        Event.register_netdev 0 ∉ (pnic_probe K E D env pci s).events
        ∧ ∃ nd, (pnic_probe K E D env pci s).events.getLast?
            = some (Event.free_netdev nd)) := by
  have hk1 := pnic_command_quiet_kind K D ⟨u16 pci.ioaddr⟩ K.PNIC_CMD_API_VER none 0
    (some (le16_bytes env.api_version0)) 2 none s
  have c1 : env.alloc_ok = false →
      (pnic_probe K E D env pci s).rc = -(E.ENOMEM : Int)
      ∧ (pnic_probe K E D env pci s).rc ≠ 0
      ∧ (pnic_probe K E D env pci s).offered = none
      ∧ (pnic_probe K E D env pci s).events
          = [Event.alloc_etherdev false, Event.free_netdev none] := by
    intro ha
    have hp : pnic_probe K E D env pci s
        = { rc := -(E.ENOMEM : Int), dev := s, offered := none,
            events := [Event.alloc_etherdev false, Event.free_netdev none] } := by
      unfold pnic_probe
      simp only [ha, if_true]
    rw [hp]
    refine ⟨rfl, ?_, rfl, rfl⟩
    show -(E.ENOMEM : Int) ≠ 0
    omega
  have c2 : env.alloc_ok = true → (pnic_command_quiet K D ⟨u16 pci.ioaddr⟩ K.PNIC_CMD_API_VER none 0
          (some (le16_bytes env.api_version0)) 2 none s).status ≠ K.PNIC_STATUS_OK →
      (pnic_probe K E D env pci s).rc = -( Errno.EIO E : Int)
      ∧ (pnic_probe K E D env pci s).rc ≠ 0
      ∧ (pnic_probe K E D env pci s).offered = none
      ∧ (pnic_probe K E D env pci s).events
          = [Event.alloc_etherdev true, Event.pci_set_drvdata] ++ (pnic_command_quiet K D ⟨u16 pci.ioaddr⟩ K.PNIC_CMD_API_VER none 0
          (some (le16_bytes env.api_version0)) 2 none s).events
            ++ [Event.printf (Diag.failed_installation_check (pnic_command_quiet K D ⟨u16 pci.ioaddr⟩ K.PNIC_CMD_API_VER none 0
          (some (le16_bytes env.api_version0)) 2 none s).status),
                Event.free_netdev (some ⟨⟨u16 pci.ioaddr⟩, env.ll_addr0⟩)]
      ∧ ∀ rc, Event.register_netdev rc ∉ (pnic_probe K E D env pci s).events := by
    intro ha hs
    have hp : pnic_probe K E D env pci s
        = { rc := -( Errno.EIO E : Int), dev := (pnic_command_quiet K D ⟨u16 pci.ioaddr⟩ K.PNIC_CMD_API_VER none 0
          (some (le16_bytes env.api_version0)) 2 none s).dev, offered := none,
            events := [Event.alloc_etherdev true, Event.pci_set_drvdata] ++ (pnic_command_quiet K D ⟨u16 pci.ioaddr⟩ K.PNIC_CMD_API_VER none 0
          (some (le16_bytes env.api_version0)) 2 none s).events
              ++ [Event.printf (Diag.failed_installation_check (pnic_command_quiet K D ⟨u16 pci.ioaddr⟩ K.PNIC_CMD_API_VER none 0
          (some (le16_bytes env.api_version0)) 2 none s).status),
                  Event.free_netdev (some ⟨⟨u16 pci.ioaddr⟩, env.ll_addr0⟩)] } := by
      unfold pnic_probe
      simp only [ha, Bool.true_eq_false, if_false, ne_eq, hs, not_false_eq_true, if_true]
    rw [hp]
    refine ⟨rfl, ?_, rfl, rfl, ?_⟩
    · show -( Errno.EIO E : Int) ≠ 0
      omega
    · intro rc hm
      simp only [List.mem_append, List.mem_cons, List.mem_singleton, List.not_mem_nil,
        or_false, reduceCtorEq, false_or] at hm
      exact not_mem_of_kind _ hk1 (Event.register_netdev rc) ⟨rfl, rfl⟩ hm
  have c3 : env.alloc_ok = true → (pnic_command_quiet K D ⟨u16 pci.ioaddr⟩ K.PNIC_CMD_API_VER none 0
          (some (le16_bytes env.api_version0)) 2 none s).status = K.PNIC_STATUS_OK →
      ∀ pn, (pnic_probe K E D env pci s).offered = some pn →
        env.register_netdev pn ≠ 0 →
        (pnic_probe K E D env pci s).rc = env.register_netdev pn
        ∧ ∃ pre, (pnic_probe K E D env pci s).events
            = pre ++ [Event.register_netdev (env.register_netdev pn),
                      Event.free_netdev (some pn.netdev)] := by
    intro ha hs pn hoff hne
    obtain ⟨pn1, pre, _, _, _, h4, h5, _, h7⟩ := pnic_probe_ok_run K E D env pci s ha hs
    rw [h4] at hoff
    have hpn : pn1 = pn := Option.some.inj hoff
    subst hpn
    refine ⟨h5, [Event.alloc_etherdev true, Event.pci_set_drvdata] ++ pre, ?_⟩
    rw [h7]
    simp only [ne_eq, hne, not_false_eq_true, if_true, List.append_assoc,
      List.singleton_append]
  refine ⟨c1, c2, c3, ?_⟩
  intro hrc
  cases ha : env.alloc_ok with
  | false =>
    obtain ⟨_, _, _, h4⟩ := c1 ha
    rw [h4]
    exact ⟨by simp, ⟨none, rfl⟩⟩
  | true =>
    by_cases hs : (pnic_command_quiet K D ⟨u16 pci.ioaddr⟩ K.PNIC_CMD_API_VER none 0
          (some (le16_bytes env.api_version0)) 2 none s).status = K.PNIC_STATUS_OK
    · obtain ⟨pn, pre, _, _, _, h4, h5, h6, h7⟩ := pnic_probe_ok_run K E D env pci s ha hs
      have hne : env.register_netdev pn ≠ 0 := by rw [← h5]; exact hrc
      rw [h7]
      simp only [ne_eq, hne, not_false_eq_true, if_true]
      constructor
      · simp only [List.mem_append, List.mem_cons, List.mem_singleton, List.not_mem_nil,
          or_false, reduceCtorEq, false_or, Event.register_netdev.injEq]
        intro hm
        rcases hm with hm | hm
        · exact not_mem_of_kind pre h6 (Event.register_netdev 0) ⟨rfl, rfl⟩ hm
        · exact hne hm.symm
      · exact ⟨some pn.netdev, by rw [List.getLast?_append]; rfl⟩
    · obtain ⟨_, _, _, h4, h5⟩ := c2 ha hs
      refine ⟨h5 0, ?_⟩
      rw [h4]
      exact ⟨_, by rw [List.getLast?_append]; rfl⟩

/-- Witness of C14: the allocation fails. -/
theorem pnic_probe_failure_witness :
    (0 < (⟨12, 5⟩ : Errno).ENOMEM ∧ 0 < Errno.EIO ⟨12, 5⟩)
    ∧ (pnic_probe sampleConsts ⟨12, 5⟩ (constDevice sampleConsts 0x300 0x4f4b 2 1)
        ⟨false, [0, 0, 0, 0, 0, 0], 0, fun _ => 0⟩ ⟨0x300⟩ ()).rc = -12 := by
  refine ⟨⟨by decide, by decide⟩, ?_⟩
  exact ((pnic_probe_failure sampleConsts ⟨12, 5⟩ (constDevice sampleConsts 0x300 0x4f4b 2 1)
    ⟨false, [0, 0, 0, 0, 0, 0], 0, fun _ => 0⟩ ⟨0x300⟩ () (by decide) (by decide)).1 rfl).1

/-! ## A frame longer than the buffer -/

/-- The receive transaction against the simulated device when the queued
frame is longer than the maximum frame length. -/
theorem sim_recv_oversize (K : Consts) (base : Nat) (s : SimPnic) (f : List Nat)
    (q : List (List Nat)) (mem : List Nat) (hK : K.usable) (hq : s.queue = f :: q)
    (hf : u16 K.ETH_FRAME_LEN < f.length) (hlt : f.length < 65536)
    (hb : ∀ b ∈ f, b < 256) (hmem : mem.length = K.ETH_FRAME_LEN) :
    (pnic_command K (simPnic K base) ⟨base⟩ K.PNIC_CMD_RECV none 0
        (some mem) K.ETH_FRAME_LEN (some 0) s).status = K.PNIC_STATUS_OK
    ∧ (pnic_command K (simPnic K base) ⟨base⟩ K.PNIC_CMD_RECV none 0
        (some mem) K.ETH_FRAME_LEN (some 0) s).output = some (f.take (u16 K.ETH_FRAME_LEN) ++ mem.drop (u16 K.ETH_FRAME_LEN))
    ∧ (pnic_command K (simPnic K base) ⟨base⟩ K.PNIC_CMD_RECV none 0
        (some mem) K.ETH_FRAME_LEN (some 0) s).output_length = some f.length
    ∧ (pnic_command K (simPnic K base) ⟨base⟩ K.PNIC_CMD_RECV none 0
        (some mem) K.ETH_FRAME_LEN (some 0) s).dev.queue = q
    ∧ inb_values (base + K.PNIC_REG_DATA) (pnic_command K (simPnic K base) ⟨base⟩ K.PNIC_CMD_RECV none 0
        (some mem) K.ETH_FRAME_LEN (some 0) s).events = f.take (u16 K.ETH_FRAME_LEN) := by
  have hK1 := hK
  obtain ⟨hreg, hcmd, hok⟩ := hK
  have hreg2 : ¬ base + K.PNIC_REG_LEN = base + K.PNIC_REG_STAT := by omega
  have hle : u16 K.ETH_FRAME_LEN ≤ K.ETH_FRAME_LEN := Nat.mod_le _ _
  have hfl : u16 f.length = f.length := u16_of_lt _ hlt
  have hst : device_status K (simPnic K base) ⟨base⟩ K.PNIC_CMD_RECV none 0 s
      = K.PNIC_STATUS_OK := by
    simp only [device_status, sim_issue_recv K base s f q hK1 hq]
    simp [simPnic, u16_of_lt _ hok]
  have hdl : device_length K (simPnic K base) ⟨base⟩ K.PNIC_CMD_RECV none 0 s
      = f.length := by
    simp only [device_length, sim_issue_recv K base s f q hK1 hq]
    simp [simPnic, hreg2, hfl]
  have hda : device_after_length K (simPnic K base) ⟨base⟩ K.PNIC_CMD_RECV none 0 s
      = { queue := q, status := K.PNIC_STATUS_OK, length := f.length, out := f } := by
    simp only [device_after_length, sim_issue_recv K base s f q hK1 hq]
    simp [simPnic, hreg2]
  have hq1 : (pnic_command_quiet K (simPnic K base) ⟨base⟩ K.PNIC_CMD_RECV none 0
      (some mem) K.ETH_FRAME_LEN (some 0) s).status = K.PNIC_STATUS_OK := by
    rw [pnic_command_quiet_status, hst]
  have hmin : min f.length (u16 K.ETH_FRAME_LEN) = u16 K.ETH_FRAME_LEN :=
    Nat.min_eq_right (Nat.le_of_lt hf)
  have hds : data_stream (simPnic K base) (base + K.PNIC_REG_DATA) (u16 K.ETH_FRAME_LEN)
      { queue := q, status := K.PNIC_STATUS_OK, length := f.length, out := f }
      = f.take (u16 K.ETH_FRAME_LEN) :=
    sim_data_stream K base (u16 K.ETH_FRAME_LEN)
      { queue := q, status := K.PNIC_STATUS_OK, length := f.length, out := f }
      (Nat.le_of_lt hf) hb
  have hc : (pnic_command K (simPnic K base) ⟨base⟩ K.PNIC_CMD_RECV none 0
        (some mem) K.ETH_FRAME_LEN (some 0) s)
      = pnic_command_quiet K (simPnic K base) ⟨base⟩ K.PNIC_CMD_RECV none 0
      (some mem) K.ETH_FRAME_LEN (some 0) s := by
    unfold pnic_command
    simp only [hq1, if_true]
  rw [hc]
  refine ⟨hq1, ?_, ?_, ?_, ?_⟩
  · rw [pnic_command_quiet_output _ _ _ _ _ _ _ _ _ _ (by omega)]
    simp only [hdl, hda, hmin, hds]
  · rw [pnic_command_quiet_sink, hdl]
    rfl
  · have : (pnic_command_quiet K (simPnic K base) ⟨base⟩ K.PNIC_CMD_RECV none 0
        (some mem) K.ETH_FRAME_LEN (some 0) s).dev.queue
        = (device_after_length K (simPnic K base) ⟨base⟩ K.PNIC_CMD_RECV none 0
            s).queue := by
      simp only [pnic_command_quiet, device_after_length]
      exact sim_read_output_queue _ _ _ _ _ _ _
    rw [this, hda]
  · have := pnic_command_quiet_inb K (simPnic K base) ⟨base⟩ K.PNIC_CMD_RECV none 0
      (some mem) K.ETH_FRAME_LEN (some 0) s
    simp only [hdl, hda, hmin, hds] at this
    exact this

/-- One call of `pnic_poll` against the simulated device holding a single
frame that is longer than the maximum frame length: the receive
transaction transfers `ETH_FRAME_LEN` bytes, and the buffer delivered
upstream has a storage of `ETH_FRAME_LEN` bytes but a valid length equal
to the length of the frame. -/
theorem sim_poll_oversize (K : Consts) (A : Allocator) (netdev : net_device)
    (f : List Nat) (s : SimPnic) (n qlen fuel : Nat)
    (hK : K.usable) (hq : s.queue = [f])
    (hf : u16 K.ETH_FRAME_LEN < f.length) (hlt : f.length < 65536)
    (hb : ∀ b ∈ f, b < 256) (hA : A.ok n = true) :
    ∃ (r : PollResult SimPnic) (b : pk_buff) (rcv : List Event),
      pnic_poll_loop K (simPnic K netdev.priv.ioaddr) A netdev (fuel + 2) s n qlen = some r
      ∧ r.events = qlen_events K netdev.priv.ioaddr 1
          ++ [Event.alloc_pkb K.ETH_FRAME_LEN true] ++ rcv ++ [Event.netdev_rx b]
          ++ qlen_events K netdev.priv.ioaddr 0
      ∧ inb_values (netdev.priv.ioaddr + K.PNIC_REG_DATA) rcv = f.take (u16 K.ETH_FRAME_LEN)
      ∧ b.mem.length = K.ETH_FRAME_LEN
      ∧ b.data = 0
      ∧ pkb_len b = f.length := by
  obtain ⟨a1, a2, a3, a4⟩ := sim_qlen K netdev.priv.ioaddr s qlen hK
  have hmem : (List.map (A.fill n) (List.range K.ETH_FRAME_LEN)).length = K.ETH_FRAME_LEN := by
    simp
  obtain ⟨b1, b2, b3, b4, b5⟩ := sim_recv_oversize K netdev.priv.ioaddr (pnic_command K (simPnic K netdev.priv.ioaddr) ⟨netdev.priv.ioaddr⟩
      K.PNIC_CMD_RECV_QLEN none 0 (some (le16_bytes qlen)) 2 none s).dev
    f [] (List.map (A.fill n) (List.range K.ETH_FRAME_LEN)) hK (by rw [a3, hq]) hf hlt hb hmem
  obtain ⟨r0, hr0, _, he0⟩ := sim_poll_empty K A netdev hK (pnic_command K (simPnic K netdev.priv.ioaddr) ⟨netdev.priv.ioaddr⟩
      K.PNIC_CMD_RECV none 0 (some (List.map (A.fill n) (List.range K.ETH_FRAME_LEN)))
      K.ETH_FRAME_LEN (some 0) (pnic_command K (simPnic K netdev.priv.ioaddr) ⟨netdev.priv.ioaddr⟩
      K.PNIC_CMD_RECV_QLEN none 0 (some (le16_bytes qlen)) 2 none s).dev).dev (n + 1) 1 fuel b4
  have hle : u16 K.ETH_FRAME_LEN ≤ K.ETH_FRAME_LEN := Nat.mod_le _ _
  have hstep : pnic_poll_loop K (simPnic K netdev.priv.ioaddr) A netdev (fuel + 1 + 1) s n qlen
      = (pnic_poll_loop K (simPnic K netdev.priv.ioaddr) A netdev (fuel + 1) (pnic_command K (simPnic K netdev.priv.ioaddr) ⟨netdev.priv.ioaddr⟩
      K.PNIC_CMD_RECV none 0 (some (List.map (A.fill n) (List.range K.ETH_FRAME_LEN)))
      K.ETH_FRAME_LEN (some 0) (pnic_command K (simPnic K netdev.priv.ioaddr) ⟨netdev.priv.ioaddr⟩
      K.PNIC_CMD_RECV_QLEN none 0 (some (le16_bytes qlen)) 2 none s).dev).dev
          (n + 1) 1).map
        (PollResult.after (qlen_events K netdev.priv.ioaddr 1
          ++ [Event.alloc_pkb K.ETH_FRAME_LEN true] ++ (pnic_command K (simPnic K netdev.priv.ioaddr) ⟨netdev.priv.ioaddr⟩
      K.PNIC_CMD_RECV none 0 (some (List.map (A.fill n) (List.range K.ETH_FRAME_LEN)))
      K.ETH_FRAME_LEN (some 0) (pnic_command K (simPnic K netdev.priv.ioaddr) ⟨netdev.priv.ioaddr⟩
      K.PNIC_CMD_RECV_QLEN none 0 (some (le16_bytes qlen)) 2 none s).dev).events
          ++ [Event.netdev_rx
            ⟨f.take (u16 K.ETH_FRAME_LEN)
              ++ (List.map (A.fill n) (List.range K.ETH_FRAME_LEN)).drop (u16 K.ETH_FRAME_LEN),
             0, f.length⟩])) := by
    rw [pnic_poll_loop]
    simp only [a1, a2, a4, hq, ne_eq, not_true_eq_false, if_false, Option.getD_some,
      List.length_singleton, le16_val_bytes 1 (by decide), Nat.one_ne_zero, alloc_pkb, hA,
      if_true, List.drop_zero, b1, b2, b3, List.take_zero, List.nil_append, pkb_put,
      Nat.zero_add]
  refine ⟨PollResult.after (qlen_events K netdev.priv.ioaddr 1
          ++ [Event.alloc_pkb K.ETH_FRAME_LEN true] ++ (pnic_command K (simPnic K netdev.priv.ioaddr) ⟨netdev.priv.ioaddr⟩
      K.PNIC_CMD_RECV none 0 (some (List.map (A.fill n) (List.range K.ETH_FRAME_LEN)))
      K.ETH_FRAME_LEN (some 0) (pnic_command K (simPnic K netdev.priv.ioaddr) ⟨netdev.priv.ioaddr⟩
      K.PNIC_CMD_RECV_QLEN none 0 (some (le16_bytes qlen)) 2 none s).dev).events
          ++ [Event.netdev_rx
            ⟨f.take (u16 K.ETH_FRAME_LEN)
              ++ (List.map (A.fill n) (List.range K.ETH_FRAME_LEN)).drop (u16 K.ETH_FRAME_LEN),
             0, f.length⟩]) r0,
    ⟨f.take (u16 K.ETH_FRAME_LEN)
      ++ (List.map (A.fill n) (List.range K.ETH_FRAME_LEN)).drop (u16 K.ETH_FRAME_LEN),
    0, f.length⟩, (pnic_command K (simPnic K netdev.priv.ioaddr) ⟨netdev.priv.ioaddr⟩
      K.PNIC_CMD_RECV none 0 (some (List.map (A.fill n) (List.range K.ETH_FRAME_LEN)))
      K.ETH_FRAME_LEN (some 0) (pnic_command K (simPnic K netdev.priv.ioaddr) ⟨netdev.priv.ioaddr⟩
      K.PNIC_CMD_RECV_QLEN none 0 (some (le16_bytes qlen)) 2 none s).dev).events, ?_, ?_, b5, ?_, rfl, ?_⟩
  · show pnic_poll_loop K (simPnic K netdev.priv.ioaddr) A netdev (fuel + 1 + 1) s n qlen = _
    rw [hstep, hr0]
    rfl
  · simp only [PollResult.after, he0]
  · simp only [List.length_append, List.length_take, List.length_drop, hmem]
    omega
  · simp [pkb_len]

/-- C15, the code at a frame of 1515 bytes with `ETH_FRAME_LEN = 1514`: the
device answers the receive transaction with status OK and declares 1515
bytes; the transaction transfers 1514 bytes into the buffer, whose storage
is 1514 bytes, but the buffer is delivered upstream with a valid length of
1515. -/
theorem pnic_poll_oversize_frame :
    ∃ (r : PollResult SimPnic) (b : pk_buff) (rcv : List Event),
      pnic_poll sampleConsts (simPnic sampleConsts 0x300) ⟨fun _ => true, fun _ _ => 0⟩
          ⟨⟨0x300⟩, []⟩ 2 0 ⟨[List.replicate 1515 0xaa], 0, 0, []⟩ 0 = some r
      ∧ r.events = qlen_events sampleConsts 0x300 1
          ++ [Event.alloc_pkb sampleConsts.ETH_FRAME_LEN true] ++ rcv ++ [Event.netdev_rx b]
          ++ qlen_events sampleConsts 0x300 0
      ∧ (inb_values (0x300 + sampleConsts.PNIC_REG_DATA) rcv).length = 1514
      ∧ b.mem.length = 1514
      ∧ pkb_len b = 1515 := by
  have hl : (List.replicate 1515 0xaa).length = 1515 := List.length_replicate _ _
  obtain ⟨r, b, rcv, h1, h2, h3, h4, _, h6⟩ := sim_poll_oversize sampleConsts
    ⟨fun _ => true, fun _ _ => 0⟩ ⟨⟨0x300⟩, []⟩ (List.replicate 1515 0xaa)
    ⟨[List.replicate 1515 0xaa], 0, 0, []⟩ 0 0 0 (by decide) rfl
    (by rw [hl]; decide) (by rw [hl]; decide)
    (by intro x hx; rw [List.eq_of_mem_replicate hx]; decide) rfl
  refine ⟨r, b, rcv, h1, h2, ?_, h4, ?_⟩
  · rw [h3, List.length_take, hl]
    decide
  · rw [h6, hl]

end IPXE
